import Mathlib

set_option autoImplicit false

/-!
Shallow embedding of the SimpleRAGASProject evaluation core:
the metric registry (`src/metrics/__init__.py`), the four metric handler
families (`retrieval_metrics.py`, `generation_metrics.py`,
`similarity_metrics.py`, `aspect_critic_metrics.py`), the orchestration in
`src/app.py` (`MetricEvaluator.evaluate` and the `/evaluate` endpoint body),
and the model resource cache (`src/models.py`, `ModelManager.get_llm`).

The external scoring capability (`ragas` metric `single_turn_ascore`) is an
opaque oracle parameter; every scoring invocation is recorded so that
"no scoring call occurs" claims are statable.  Python dict values are
embedded as association lists with first-key lookup and in-place
insert-or-replace, matching CPython dict semantics for the keys used here.
-/

namespace RagasEval

/-- A field value of an evaluation record: the payloads used by the code are
strings (`user_input`, `response`, `reference`) and lists of strings
(`retrieved_contexts`). -/
inductive Val where
  | str (s : String)
  | list (xs : List String)
  deriving DecidableEq, Repr

/-- Python truthiness of a field value: empty strings and empty lists are
falsy. -/
def Val.truthy : Val → Bool
  | .str s => !(s = "")
  | .list xs => !(xs = [])

/-- Python truthiness of `d.get(k)`: `None` is falsy, otherwise the value
decides. -/
def falsy : Option Val → Bool
  | none => true
  | some v => !v.truthy

/-- An evaluation record: an open, string-keyed mapping (`data` in the
code). -/
abbrev Record := List (String × Val)

/-- First-match association-list lookup (`d.get(k)` / `k in d`). -/
def alookup {α : Type} (k : String) : List (String × α) → Option α
  | [] => none
  | (q, v) :: rest => if k = q then some v else alookup k rest

/-- Python dict assignment `d[k] = v`: replace in place when the key exists,
otherwise append (CPython dicts preserve first-insertion order). -/
def dinsert {α : Type} (l : List (String × α)) (k : String) (v : α) :
    List (String × α) :=
  match l with
  | [] => [(k, v)]
  | (q, w) :: rest => if q = k then (k, v) :: rest else (q, w) :: dinsert rest k v

/-- Python `d1.update(d2)`: insert every entry of the second mapping into the
first, in order. -/
def dmerge {α : Type} (l r : List (String × α)) : List (String × α) :=
  r.foldl (fun acc p => dinsert acc p.1 p.2) l

/-- The field access on a record (`data.get(k)` / key presence via `k in
data`). -/
def Record.get (d : Record) (k : String) : Option Val := alookup k d

/-- The minimal sample shape handed to a scoring capability
(`SingleTurnSample(**sample_data)`): the handler prepare functions only ever
populate these four keys. -/
structure Sample where
  user_input : Option Val := none
  response : Option Val := none
  retrieved_contexts : Option Val := none
  reference : Option Val := none
  deriving DecidableEq, Repr

/-- A raw value returned by the opaque scoring capability: a number, or (for
the similarity family's rouge metric) a dict of sub-scores.  The numeric
payload is abstract; `Int` stands in for the float returned by `ragas`. -/
inductive ScoreVal where
  | num (x : Int)
  | dict (entries : List (String × Int))
  deriving DecidableEq, Repr

/-- A stored metric result: the coerced `float(score)` or the dict kept
as-is by the similarity family. -/
inductive MetricResult where
  | num (x : Int)
  | dict (entries : List (String × Int))
  deriving DecidableEq, Repr

/-- The opaque scoring capability `score(sample)`: may fail with a message
(any exception raised during `single_turn_ascore`). -/
abbrev Oracle := String → Sample → Except String ScoreVal

/-- Python `float(score)`: numbers coerce, a dict raises `TypeError` (which
the per-metric `except` then catches). -/
def floatOf : ScoreVal → Option MetricResult
  | .num x => some (.num x)
  | .dict _ => none

/-- The similarity family keeps a dict result as-is and coerces numbers. -/
def keepDict : ScoreVal → Option MetricResult
  | .num x => some (.num x)
  | .dict d => some (.dict d)

/-- Output of one handler group's `calculate`: the per-metric result
mapping, the scoring-capability invocations made (in order), and the console
log lines printed. -/
structure CalcOut where
  results : List (String × Option MetricResult)
  calls : List (String × Sample)
  log : List String
  deriving Repr

/-- One handler family, as constructed for a request: the keys of its
`self.metrics` dict, its `_prepare_sample`, how it coerces a raw score, and
which requested-but-unconstructed metric it still nulls out (the similarity
family's `semantic_similarity` when embeddings are absent). -/
structure Family where
  keys : List String
  prepare : Record → String → Option Sample
  coerce : ScoreVal → Option MetricResult
  nullWhenMissing : String → Bool

/-- One loop iteration of a handler group's `calculate` for metric `m`. -/
def calcStep (fam : Family) (oracle : Oracle) (data : Record) (acc : CalcOut)
    (m : String) : CalcOut :=
  if fam.keys.contains m then
    match fam.prepare data m with
    | none => { acc with results := dinsert acc.results m none }
    | some s =>
      match oracle m s with
      | .ok sv =>
        match fam.coerce sv with
        | some r =>
          { results := dinsert acc.results m (some r)
            calls := acc.calls ++ [(m, s)]
            log := acc.log }
        | none =>
          { results := dinsert acc.results m none
            calls := acc.calls ++ [(m, s)]
            log := acc.log ++ ["Error calculating " ++ m ++ ": TypeError"] }
      | .error msg =>
        { results := dinsert acc.results m none
          calls := acc.calls ++ [(m, s)]
          log := acc.log ++ ["Error calculating " ++ m ++ ": " ++ msg] }
  else if fam.nullWhenMissing m then
    { acc with results := dinsert acc.results m none
               log := acc.log ++ ["Skipping " ++ m ++ ": embeddings not available"] }
  else acc

/-- The loop of `calculate` over the requested metric names. -/
def calcGo (fam : Family) (oracle : Oracle) (data : Record) (acc : CalcOut) :
    List String → CalcOut
  | [] => acc
  | m :: rest => calcGo fam oracle data (calcStep fam oracle data acc m) rest

/-- A handler group's `calculate(data, metric_names)`. -/
def familyCalc (fam : Family) (oracle : Oracle) (data : Record)
    (names : List String) : CalcOut :=
  calcGo fam oracle data ⟨[], [], []⟩ names

/-- The value `calculate` stores for one requested metric name: null when
the metric is not constructed, when `_prepare_sample` signals missing
fields, when the scoring capability raises, or when score coercion raises;
otherwise the coerced score. -/
def famOne (fam : Family) (oracle : Oracle) (data : Record) (m : String) :
    Option MetricResult :=
  if fam.keys.contains m then
    match fam.prepare data m with
    | none => none
    | some s =>
      match oracle m s with
      | .ok sv => fam.coerce sv
      | .error _ => none
  else none

/-- The scoring-capability invocation `calculate` makes for one requested
metric name, if any. -/
def famCall (fam : Family) (data : Record) (m : String) :
    Option (String × Sample) :=
  if fam.keys.contains m then (fam.prepare data m).map (fun s => (m, s))
  else none

/-- Whether `calculate` stores an entry for a requested name: the metric is
constructed or it is the similarity family's embeddings-missing special
case. -/
def famHandles (fam : Family) (m : String) : Bool :=
  fam.keys.contains m || fam.nullWhenMissing m

namespace GenerationMetrics

/-- `GenerationMetrics.get_supported_metrics()`. -/
def supportedMetrics : List String :=
  ["faithfulness", "answer_relevancy", "answer_correctness"]

/-- Keys of `GenerationMetrics.self.metrics`. -/
def metricsKeys : List String :=
  ["faithfulness", "answer_relevancy", "answer_correctness"]

/-- `GenerationMetrics._prepare_sample`: common fields, then the per-metric
branch (early `return None` on a missing branch-specific field), then the
final truthiness check on `user_input` and `response`. -/
def prepareSample (data : Record) (m : String) : Option Sample :=
  let s0 : Sample :=
    { user_input := Record.get data "user_input"
      response := Record.get data "response" }
  let step : Option Sample :=
    if m = "faithfulness" then
      match Record.get data "retrieved_contexts" with
      | none => none
      | some v => some { s0 with retrieved_contexts := some v }
    else if m = "answer_relevancy" then
      some { s0 with retrieved_contexts := Record.get data "retrieved_contexts" }
    else if m = "answer_correctness" then
      match Record.get data "reference" with
      | none => none
      | some v =>
        some { s0 with reference := some v
                       retrieved_contexts := Record.get data "retrieved_contexts" }
    else some s0
  match step with
  | none => none
  | some s => if falsy s.user_input || falsy s.response then none else some s

/-- `GenerationMetrics.get_metric_requirements()`. -/
def getMetricRequirements : List (String × List String) :=
  [("faithfulness", ["user_input", "response", "retrieved_contexts"]),
   ("answer_relevancy", ["user_input", "response"]),
   ("answer_correctness", ["user_input", "response", "reference"])]

end GenerationMetrics

/-- The generation handler group as constructed by
`initialize_handlers` (its `self.metrics` does not depend on embeddings). -/
def generationFamily : Family :=
  { keys := GenerationMetrics.metricsKeys
    prepare := GenerationMetrics.prepareSample
    coerce := floatOf
    nullWhenMissing := fun _ => false }

namespace RetrievalMetrics

/-- `RetrievalMetrics.get_supported_metrics()`. -/
def supportedMetrics : List String :=
  ["context_precision", "context_precision_with_ref", "context_recall"]

/-- Keys of `RetrievalMetrics.self.metrics` (it also constructs
`response_relevancy`, which `get_supported_metrics` does not list). -/
def metricsKeys : List String :=
  ["context_precision", "context_precision_with_ref", "context_recall",
   "response_relevancy"]

/-- `RetrievalMetrics._prepare_sample`: common fields, per-metric branch,
then the final truthiness check on `user_input` and `retrieved_contexts`. -/
def prepareSample (data : Record) (m : String) : Option Sample :=
  let s0 : Sample :=
    { user_input := Record.get data "user_input"
      retrieved_contexts := Record.get data "retrieved_contexts" }
  let step : Option Sample :=
    if m = "context_precision" then
      match Record.get data "response" with
      | none => none
      | some v => some { s0 with response := some v }
    else if m = "context_precision_with_ref" then
      match Record.get data "reference" with
      | none => none
      | some v => some { s0 with reference := some v }
    else if m = "context_recall" then
      match Record.get data "reference" with
      | none => none
      | some v => some { s0 with reference := some v }
    else some s0
  match step with
  | none => none
  | some s =>
    if falsy s.user_input || falsy s.retrieved_contexts then none else some s

/-- `RetrievalMetrics.get_metric_requirements()`. -/
def getMetricRequirements : List (String × List String) :=
  [("context_precision", ["user_input", "response", "retrieved_contexts"]),
   ("context_precision_with_ref", ["user_input", "reference", "retrieved_contexts"]),
   ("context_recall", ["user_input", "reference", "retrieved_contexts"])]

end RetrievalMetrics

/-- The retrieval handler group as constructed by `initialize_handlers`. -/
def retrievalFamily : Family :=
  { keys := RetrievalMetrics.metricsKeys
    prepare := RetrievalMetrics.prepareSample
    coerce := floatOf
    nullWhenMissing := fun _ => false }

namespace SimilarityMetrics

/-- `SimilarityMetrics.get_supported_metrics()`. -/
def supportedMetrics : List String :=
  ["semantic_similarity", "bleu_score", "rouge_score"]

/-- Keys of `SimilarityMetrics.self.metrics`: `semantic_similarity` is only
constructed when an embeddings handle was supplied. -/
def metricsKeys (emb : Bool) : List String :=
  (if emb then ["semantic_similarity"] else []) ++ ["bleu_score", "rouge_score"]

/-- `SimilarityMetrics._prepare_sample`: requires the `response` and
`reference` keys (presence, not truthiness), `user_input` optional; the
metric name is not consulted. -/
def prepareSample (data : Record) (_m : String) : Option Sample :=
  match Record.get data "response", Record.get data "reference" with
  | some r, some ref =>
    some { response := some r
           reference := some ref
           user_input := Record.get data "user_input" }
  | _, _ => none

/-- `SimilarityMetrics.get_metric_requirements()`. -/
def getMetricRequirements : List (String × List String) :=
  [("semantic_similarity", ["response", "reference"]),
   ("bleu_score", ["response", "reference"]),
   ("rouge_score", ["response", "reference"])]

end SimilarityMetrics

/-- The similarity handler group as constructed by `initialize_handlers`,
parameterized by whether an embeddings handle was available; a requested
`semantic_similarity` without embeddings is nulled out with a console skip
line (the dict branch of `calculate` keeps rouge-style dict scores). -/
def similarityFamily (emb : Bool) : Family :=
  { keys := SimilarityMetrics.metricsKeys emb
    prepare := SimilarityMetrics.prepareSample
    coerce := keepDict
    nullWhenMissing := fun m => m = "semantic_similarity" && !emb }

namespace AspectCriticMetrics

/-- `AspectCriticMetrics.get_supported_metrics()` (also the keys of its
`self.metrics`). -/
def supportedMetrics : List String :=
  ["coherence", "conciseness", "harmfulness", "maliciousness"]

/-- `AspectCriticMetrics._prepare_sample`: requires the `user_input` and
`response` keys (presence, not truthiness). -/
def prepareSample (data : Record) (_m : String) : Option Sample :=
  match Record.get data "user_input", Record.get data "response" with
  | some u, some r => some { user_input := some u, response := some r }
  | _, _ => none

/-- `AspectCriticMetrics.get_metric_requirements()`. -/
def getMetricRequirements : List (String × List String) :=
  [("coherence", ["user_input", "response"]),
   ("conciseness", ["user_input", "response"]),
   ("harmfulness", ["user_input", "response"]),
   ("maliciousness", ["user_input", "response"])]

end AspectCriticMetrics

/-- The aspect-critique handler group (fully implemented in
`aspect_critic_metrics.py`; `MetricEvaluator` never instantiates it). -/
def aspectCriticFamily : Family :=
  { keys := AspectCriticMetrics.supportedMetrics
    prepare := AspectCriticMetrics.prepareSample
    coerce := floatOf
    nullWhenMissing := fun _ => false }

/-- The handler classes a registry entry can point at. -/
inductive HandlerClass where
  | retrieval
  | generation
  | similarity
  | aspectCritic
  deriving DecidableEq, Repr

/-- `METRIC_REGISTRY` from `src/metrics/__init__.py`, in source order. -/
def METRIC_REGISTRY : List (String × HandlerClass) :=
  [("context_precision", .retrieval),
   ("context_precision_with_ref", .retrieval),
   ("context_recall", .retrieval),
   ("faithfulness", .generation),
   ("answer_relevancy", .generation),
   ("answer_correctness", .generation),
   ("semantic_similarity", .similarity),
   ("bleu_score", .similarity),
   ("rouge_score", .similarity),
   ("coherence", .aspectCritic),
   ("conciseness", .aspectCritic),
   ("harmfulness", .aspectCritic),
   ("maliciousness", .aspectCritic)]

/-- `get_all_supported_metrics()`: the registry keys. -/
def get_all_supported_metrics : List String := METRIC_REGISTRY.map Prod.fst

/-- `get_metric_handler(name)`: `METRIC_REGISTRY.get(metric_name)`, i.e. a
plain dict lookup returning `None` on a missing key. -/
def get_metric_handler (name : String) : Option HandlerClass :=
  alookup name METRIC_REGISTRY

/-- `MetricEvaluator.evaluate(data, metrics)` with all three handlers
initialized (as `/evaluate` does after `initialize_handlers`): partition the
requested names by each class's `get_supported_metrics`, run the three
`calculate` calls, and merge their result dicts with `results.update`. -/
def evaluatorEvaluate (oracle : Oracle) (emb : Bool) (data : Record)
    (metrics : List String) : CalcOut :=
  let retrievalNames := metrics.filter (fun m => RetrievalMetrics.supportedMetrics.contains m)
  let generationNames := metrics.filter (fun m => GenerationMetrics.supportedMetrics.contains m)
  let similarityNames := metrics.filter (fun m => SimilarityMetrics.supportedMetrics.contains m)
  let r := familyCalc retrievalFamily oracle data retrievalNames
  let g := familyCalc generationFamily oracle data generationNames
  let s := familyCalc (similarityFamily emb) oracle data similarityNames
  { results := dmerge (dmerge (dmerge [] r.results) g.results) s.results
    calls := r.calls ++ g.calls ++ s.calls
    log := r.log ++ g.log ++ s.log }

/-- Rendering of the `f"Unsupported metrics: {invalid_metrics}"` warning
string appended to `errors`. -/
def unsupportedMsg (names : List String) : String :=
  "Unsupported metrics: [" ++
    String.intercalate ", " (names.map (fun n => "'" ++ n ++ "'")) ++ "]"

/-- The evaluation outcome assembled by the `/evaluate` endpoint:
`metrics` (scores), the derived calculated/skipped name lists, the `errors`
list, plus the instrumented scoring calls and console log. -/
structure Outcome where
  scores : List (String × Option MetricResult)
  calculated : List String
  skipped : List String
  errors : List String
  calls : List (String × Sample)
  log : List String
  deriving Repr

/-- The core of the `/evaluate` endpoint body (`evaluate_metrics`) after the
model handles are acquired: validate the requested names against the
registry, evaluate the valid ones, and derive the outcome fields.  `emb`
records whether an embeddings handle was available. -/
def evaluateMetricsCore (oracle : Oracle) (emb : Bool) (data : Record)
    (metrics : List String) : Outcome :=
  let invalid := metrics.filter (fun m => !get_all_supported_metrics.contains m)
  let errs := if invalid.isEmpty then [] else [unsupportedMsg invalid]
  let valid := metrics.filter (fun m => get_all_supported_metrics.contains m)
  let res := evaluatorEvaluate oracle emb data valid
  { scores := res.results
    calculated := (res.results.filter (fun p => p.2.isSome)).map Prod.fst
    skipped := (res.results.filter (fun p => p.2.isNone)).map Prod.fst
    errors := errs
    calls := res.calls
    log := res.log }

/-- The `/metrics/requirements` endpoint response: only the retrieval,
generation and similarity families are included. -/
def metricRequirementsResponse : List (String × List (String × List String)) :=
  [("retrieval", RetrievalMetrics.getMetricRequirements),
   ("generation", GenerationMetrics.getMetricRequirements),
   ("similarity", SimilarityMetrics.getMetricRequirements)]

/-- The configuration fields `ModelManager.get_llm` reads (`config.py`):
API keys are `None` when the environment variable is unset. -/
structure Config where
  OPENAI_API_KEY : Option String
  ANTHROPIC_API_KEY : Option String
  DEFAULT_PROVIDER : String
  DEFAULT_LLM_MODEL : String
  deriving DecidableEq, Repr

/-- One provider's entry in `Config.SUPPORTED_MODELS`. -/
structure Catalog where
  llm : List String
  embeddings : List String
  deriving DecidableEq, Repr

/-- `Config.SUPPORTED_MODELS` as a provider lookup. -/
def SUPPORTED_MODELS (provider : String) : Option Catalog :=
  if provider = "openai" then
    some { llm := ["gpt-4", "gpt-3.5-turbo", "gpt-4-turbo"]
           embeddings := ["text-embedding-ada-002", "text-embedding-3-small",
                          "text-embedding-3-large"] }
  else if provider = "anthropic" then
    some { llm := ["claude-3-opus-20240229", "claude-3-sonnet-20240229",
                   "claude-3-haiku-20240307"]
           embeddings := [] }
  else none

/-- A model handle: constructed handles are distinguished by a fresh id, so
two construction events never yield the same handle identity. -/
abbrev Handle := Nat

/-- The mutable state of `ModelManager`: the two caches and the fresh-id
counter standing in for client-object allocation. -/
structure MMState where
  llmCache : List (String × Handle)
  embCache : List (String × Handle)
  nextId : Nat
  deriving DecidableEq, Repr

/-- The `ValueError` variants `get_llm` raises, by the check that fired. -/
inductive MMError where
  | unsupportedProvider (p : String)
  | unsupportedModel (p m : String)
  | missingCredential (p : String)
  | notImplemented (p : String)
  deriving DecidableEq, Repr

/-- Python `x or default` on an optional argument: `None` and the empty
string both fall back. -/
def pyOr (x : Option String) (dflt : String) : String :=
  match x with
  | none => dflt
  | some s => if s = "" then dflt else s

/-- Python `not key` on a configured credential: unset or empty means
missing. -/
def credMissing (c : Option String) : Bool :=
  match c with
  | none => true
  | some s => s = ""

/-- Resolution of the provider/model pair from the optional arguments and
the configured defaults, as at the top of `get_llm`. -/
def resolveLLM (cfg : Config) (providerArg modelArg : Option String) :
    String × String :=
  (pyOr providerArg cfg.DEFAULT_PROVIDER, pyOr modelArg cfg.DEFAULT_LLM_MODEL)

/-- The cache key `f"{provider}_{model_name}"`. -/
def cacheKeyOf (provider modelName : String) : String :=
  provider ++ "_" ++ modelName

/-- The credential `get_llm` checks for a provider. -/
def credential (cfg : Config) (provider : String) : Option String :=
  if provider = "openai" then cfg.OPENAI_API_KEY
  else if provider = "anthropic" then cfg.ANTHROPIC_API_KEY
  else none

/-- `ModelManager.get_llm`: resolve defaults, check the provider and model
against the catalog, consult the cache, and otherwise construct (checking
the provider credential first), memoize and return a fresh handle.  The
function is synchronous in the source (no suspension point), so one call is
atomic with respect to the cooperative scheduler; concurrent access is the
sequential composition of atomic calls. -/
def getLLM (cfg : Config) (st : MMState) (providerArg modelArg : Option String) :
    Except MMError Handle × MMState :=
  let provider := pyOr providerArg cfg.DEFAULT_PROVIDER
  let modelName := pyOr modelArg cfg.DEFAULT_LLM_MODEL
  match SUPPORTED_MODELS provider with
  | none => (.error (.unsupportedProvider provider), st)
  | some cat =>
    if !cat.llm.contains modelName then
      (.error (.unsupportedModel provider modelName), st)
    else
      let cacheKey := cacheKeyOf provider modelName
      match alookup cacheKey st.llmCache with
      | some h => (.ok h, st)
      | none =>
        if provider = "openai" then
          if credMissing cfg.OPENAI_API_KEY then
            (.error (.missingCredential provider), st)
          else
            (.ok st.nextId,
             { st with llmCache := dinsert st.llmCache cacheKey st.nextId
                       nextId := st.nextId + 1 })
        else if provider = "anthropic" then
          if credMissing cfg.ANTHROPIC_API_KEY then
            (.error (.missingCredential provider), st)
          else
            (.ok st.nextId,
             { st with llmCache := dinsert st.llmCache cacheKey st.nextId
                       nextId := st.nextId + 1 })
        else (.error (.notImplemented provider), st)

/-- A sequence of `get_llm` calls executed one after the other (each call is
atomic under the cooperative scheduler, so any interleaving of concurrent
callers is such a sequence). -/
def runGetLLM (cfg : Config) :
    MMState → List (Option String × Option String) →
    MMState × List (Except MMError Handle)
  | st, [] => (st, [])
  | st, (p, m) :: rest =>
    let step := getLLM cfg st p m
    let tail := runGetLLM cfg step.2 rest
    (tail.1, step.1 :: tail.2)

/-- The three supported-metric lists `MetricEvaluator.evaluate` actually
routes (the aspect-critique family never appears here). -/
def threeFamilySupported : List String :=
  RetrievalMetrics.supportedMetrics ++ GenerationMetrics.supportedMetrics ++
    SimilarityMetrics.supportedMetrics

/-- The value the evaluator ends up storing for one valid requested metric,
according to the family the name is routed to. -/
def computeOne (oracle : Oracle) (emb : Bool) (data : Record) (m : String) :
    Option MetricResult :=
  if RetrievalMetrics.supportedMetrics.contains m then
    famOne retrievalFamily oracle data m
  else if GenerationMetrics.supportedMetrics.contains m then
    famOne generationFamily oracle data m
  else if SimilarityMetrics.supportedMetrics.contains m then
    famOne (similarityFamily emb) oracle data m
  else none

/-- The scoring call the evaluator makes for one valid requested metric,
according to the family the name is routed to. -/
def callOf (emb : Bool) (data : Record) (m : String) :
    Option (String × Sample) :=
  if RetrievalMetrics.supportedMetrics.contains m then
    famCall retrievalFamily data m
  else if GenerationMetrics.supportedMetrics.contains m then
    famCall generationFamily data m
  else if SimilarityMetrics.supportedMetrics.contains m then
    famCall (similarityFamily emb) data m
  else none

/-- The combined required-field tables of the three families the evaluator
routes. -/
def requirementsThree : List (String × List String) :=
  RetrievalMetrics.getMetricRequirements ++
    GenerationMetrics.getMetricRequirements ++
    SimilarityMetrics.getMetricRequirements

/-- A scoring capability that always succeeds with a numeric score. -/
def oracleOK : Oracle := fun _ _ => .ok (.num 1)

/-- A scoring capability whose `faithfulness` metric always raises while
every other metric succeeds. -/
def oracleC2 : Oracle := fun m _ =>
  if m = "faithfulness" then .error "boom" else .ok (.num 1)

/-- Scenario-A style record: question, answer and retrieved contexts. -/
def dataFull : Record :=
  [("user_input", .str "q"), ("response", .str "a"),
   ("retrieved_contexts", .list ["c"])]

/-- A record holding only question and answer. -/
def dataQA : Record :=
  [("user_input", .str "q"), ("response", .str "a")]

/-- A record holding only a response (no `user_input`). -/
def dataRespOnly : Record := [("response", .str "a")]

/-- A record whose `user_input` key is present but holds the empty string. -/
def dataEmptyUI : Record :=
  [("user_input", .str ""), ("response", .str "a"),
   ("retrieved_contexts", .list ["c"])]

/-- A configuration with an OpenAI key and the stock defaults. -/
def cfgKey : Config :=
  { OPENAI_API_KEY := some "sk-test"
    ANTHROPIC_API_KEY := none
    DEFAULT_PROVIDER := "openai"
    DEFAULT_LLM_MODEL := "gpt-4" }

/-- The same configuration with no OpenAI key configured. -/
def cfgNoKey : Config := { cfgKey with OPENAI_API_KEY := none }

/-- The model-manager state with empty caches. -/
def st0 : MMState := { llmCache := [], embCache := [], nextId := 0 }

/-- The state after one default `get_llm` call under `cfgKey`. -/
def stW1 : MMState :=
  { llmCache := [("openai_gpt-4", 0)], embCache := [], nextId := 1 }

/-- The state after a further `get_llm` call for `gpt-3.5-turbo`. -/
def stW2 : MMState :=
  { llmCache := [("openai_gpt-4", 0), ("openai_gpt-3.5-turbo", 1)]
    embCache := []
    nextId := 2 }

/-- The OpenAI entry of the supported-model catalog. -/
def openaiCatalog : Catalog :=
  { llm := ["gpt-4", "gpt-3.5-turbo", "gpt-4-turbo"]
    embeddings := ["text-embedding-ada-002", "text-embedding-3-small",
                   "text-embedding-3-large"] }

/-! Association-list lemmas. -/

theorem alookup_dinsert {α : Type} (l : List (String × α)) (k q : String) (v : α) :
    alookup q (dinsert l k v) = if q = k then some v else alookup q l := by
  induction l with
  | nil => simp [dinsert, alookup]
  | cons hd tl ih =>
    obtain ⟨a, b⟩ := hd
    by_cases hak : a = k
    · subst hak
      by_cases hq : q = a <;> simp [dinsert, alookup, hq]
    · by_cases hq : q = a
      · subst hq
        simp [dinsert, alookup, hak, Ne.symm hak]
      · simp [dinsert, alookup, hak, hq, ih]

theorem alookup_eq_none {α : Type} (l : List (String × α)) (k : String)
    (h : k ∉ l.map Prod.fst) : alookup k l = none := by
  induction l with
  | nil => rfl
  | cons hd tl ih =>
    simp only [List.map_cons, List.mem_cons] at h
    push_neg at h
    simp [alookup, h.1, ih h.2]

theorem mem_of_alookup_eq_some {α : Type} (l : List (String × α)) (k : String)
    (v : α) (h : alookup k l = some v) : (k, v) ∈ l := by
  induction l with
  | nil => simp [alookup] at h
  | cons hd tl ih =>
    obtain ⟨a, b⟩ := hd
    by_cases hk : k = a
    · subst hk
      simp [alookup] at h
      simp [h]
    · simp [alookup, hk] at h
      simp [ih h]

theorem keys_dinsert {α : Type} (l : List (String × α)) (k q : String) (v : α)
    (h : q ∈ (dinsert l k v).map Prod.fst) : q ∈ l.map Prod.fst ∨ q = k := by
  induction l with
  | nil =>
    simp only [dinsert, List.map_cons, List.map_nil, List.mem_singleton] at h
    exact Or.inr h
  | cons hd tl ih =>
    obtain ⟨a, b⟩ := hd
    by_cases hak : a = k
    · subst hak
      rw [show dinsert ((a, b) :: tl) a v = (a, v) :: tl from by simp [dinsert]] at h
      simp only [List.map_cons, List.mem_cons] at h ⊢
      tauto
    · simp only [dinsert, hak, if_false, List.map_cons, List.mem_cons] at h
      rcases h with h | h
      · exact Or.inl (by simp [h])
      · rcases ih h with h2 | h2
        · exact Or.inl (by simp [h2])
        · exact Or.inr h2

theorem nodup_keys_dinsert {α : Type} (l : List (String × α)) (k : String) (v : α)
    (h : (l.map Prod.fst).Nodup) : ((dinsert l k v).map Prod.fst).Nodup := by
  induction l with
  | nil => simp [dinsert]
  | cons hd tl ih =>
    obtain ⟨a, b⟩ := hd
    simp only [List.map_cons, List.nodup_cons] at h
    by_cases hak : a = k
    · subst hak
      rw [show dinsert ((a, b) :: tl) a v = (a, v) :: tl from by simp [dinsert]]
      simp only [List.map_cons, List.nodup_cons]
      exact h
    · simp only [dinsert, hak, if_false, List.map_cons, List.nodup_cons]
      refine ⟨fun hmem => ?_, ih h.2⟩
      rcases keys_dinsert tl k a v hmem with h2 | h2
      · exact h.1 h2
      · exact hak h2

theorem keys_dmerge {α : Type} (l r : List (String × α)) (q : String)
    (h : q ∈ (dmerge l r).map Prod.fst) :
    q ∈ l.map Prod.fst ∨ q ∈ r.map Prod.fst := by
  induction r generalizing l with
  | nil => exact Or.inl h
  | cons hd tl ih =>
    obtain ⟨a, b⟩ := hd
    have h2 := ih (dinsert l a b) (by simpa [dmerge] using h)
    rcases h2 with h2 | h2
    · rcases keys_dinsert l a q b h2 with h3 | h3
      · exact Or.inl h3
      · exact Or.inr (by simp [h3])
    · exact Or.inr (by simp [h2])

theorem alookup_dmerge {α : Type} (l r : List (String × α)) (q : String)
    (h : (r.map Prod.fst).Nodup) :
    alookup q (dmerge l r) =
      match alookup q r with
      | some v => some v
      | none => alookup q l := by
  induction r generalizing l with
  | nil => simp [dmerge, alookup]
  | cons hd tl ih =>
    obtain ⟨a, b⟩ := hd
    simp only [List.map_cons, List.nodup_cons] at h
    have step : dmerge l ((a, b) :: tl) = dmerge (dinsert l a b) tl := by
      simp [dmerge]
    rw [step, ih (dinsert l a b) h.2]
    by_cases hq : q = a
    · subst hq
      rw [alookup_eq_none tl q h.1]
      simp [alookup, alookup_dinsert]
    · simp only [alookup, if_neg hq]
      cases htl : alookup q tl with
      | some v => simp
      | none => simp [alookup_dinsert, hq]

/-! Characterization of a handler group's `calculate` loop. -/

theorem famCall_fst (fam : Family) (data : Record) (a : String)
    (c : String × Sample) (h : famCall fam data a = some c) : c.1 = a := by
  unfold famCall at h
  split at h
  · cases hp : fam.prepare data a with
    | none => rw [hp] at h; exact Option.noConfusion h
    | some s =>
      rw [hp] at h
      have h2 : (a, s) = c := Option.some.inj h
      rw [← h2]
  · exact Option.noConfusion h

theorem calcStep_results (fam : Family) (oracle : Oracle) (data : Record)
    (acc : CalcOut) (m q : String) :
    alookup q (calcStep fam oracle data acc m).results =
      if q = m ∧ famHandles fam m = true then some (famOne fam oracle data m)
      else alookup q acc.results := by
  unfold calcStep famOne famHandles
  by_cases hk : fam.keys.contains m = true
  · rw [if_pos hk]
    have hkm : m ∈ fam.keys := by simpa using hk
    cases hp : fam.prepare data m with
    | none =>
      dsimp only
      by_cases hq : q = m <;> simp [hq, hkm, alookup_dinsert]
    | some s =>
      dsimp only
      cases ho : oracle m s with
      | ok sv =>
        dsimp only
        cases hc : fam.coerce sv with
        | some r =>
          dsimp only
          by_cases hq : q = m <;> simp [hq, hkm, alookup_dinsert]
        | none =>
          dsimp only
          by_cases hq : q = m <;> simp [hq, hkm, alookup_dinsert]
      | error msg =>
        dsimp only
        by_cases hq : q = m <;> simp [hq, hkm, alookup_dinsert]
  · rw [if_neg hk]
    have hkm : m ∉ fam.keys := by simpa using hk
    by_cases hn : fam.nullWhenMissing m = true
    · rw [if_pos hn]
      by_cases hq : q = m <;> simp [hq, hkm, hn, alookup_dinsert]
    · have hn2 : fam.nullWhenMissing m = false := by
        cases hval : fam.nullWhenMissing m
        · rfl
        · exact absurd hval hn
      rw [if_neg hn]
      by_cases hq : q = m <;> simp [hq, hkm, hn2]

theorem calcStep_calls (fam : Family) (oracle : Oracle) (data : Record)
    (acc : CalcOut) (m : String) :
    (calcStep fam oracle data acc m).calls =
      acc.calls ++ (famCall fam data m).toList := by
  unfold calcStep famCall
  by_cases hk : fam.keys.contains m = true
  · rw [if_pos hk, if_pos hk]
    cases hp : fam.prepare data m with
    | none => simp
    | some s =>
      dsimp only
      cases ho : oracle m s with
      | ok sv =>
        dsimp only
        cases hc : fam.coerce sv with
        | some r => simp
        | none => simp
      | error msg => simp
  · rw [if_neg hk, if_neg hk]
    by_cases hn : fam.nullWhenMissing m = true
    · rw [if_pos hn]; simp
    · rw [if_neg hn]; simp

theorem calcStep_keys (fam : Family) (oracle : Oracle) (data : Record)
    (acc : CalcOut) (m q : String)
    (h : q ∈ (calcStep fam oracle data acc m).results.map Prod.fst) :
    q ∈ acc.results.map Prod.fst ∨ q = m := by
  unfold calcStep at h
  by_cases hk : fam.keys.contains m = true
  · rw [if_pos hk] at h
    cases hp : fam.prepare data m with
    | none =>
      rw [hp] at h
      exact keys_dinsert acc.results m q none h
    | some s =>
      rw [hp] at h
      dsimp only at h
      cases ho : oracle m s with
      | ok sv =>
        rw [ho] at h
        dsimp only at h
        cases hc : fam.coerce sv with
        | some r =>
          rw [hc] at h
          exact keys_dinsert acc.results m q (some r) h
        | none =>
          rw [hc] at h
          exact keys_dinsert acc.results m q none h
      | error msg =>
        rw [ho] at h
        exact keys_dinsert acc.results m q none h
  · rw [if_neg hk] at h
    by_cases hn : fam.nullWhenMissing m = true
    · rw [if_pos hn] at h
      exact keys_dinsert acc.results m q none h
    · rw [if_neg hn] at h
      exact Or.inl h

theorem calcStep_nodup (fam : Family) (oracle : Oracle) (data : Record)
    (acc : CalcOut) (m : String) (h : (acc.results.map Prod.fst).Nodup) :
    ((calcStep fam oracle data acc m).results.map Prod.fst).Nodup := by
  unfold calcStep
  by_cases hk : fam.keys.contains m = true
  · rw [if_pos hk]
    cases hp : fam.prepare data m with
    | none => exact nodup_keys_dinsert _ _ _ h
    | some s =>
      dsimp only
      cases ho : oracle m s with
      | ok sv =>
        dsimp only
        cases hc : fam.coerce sv with
        | some r => exact nodup_keys_dinsert _ _ _ h
        | none => exact nodup_keys_dinsert _ _ _ h
      | error msg => exact nodup_keys_dinsert _ _ _ h

  · rw [if_neg hk]
    by_cases hn : fam.nullWhenMissing m = true
    · rw [if_pos hn]
      exact nodup_keys_dinsert _ _ _ h
    · rw [if_neg hn]
      exact h

theorem calcGo_results (fam : Family) (oracle : Oracle) (data : Record)
    (ns : List String) (acc : CalcOut) (q : String) :
    alookup q (calcGo fam oracle data acc ns).results =
      if q ∈ ns ∧ famHandles fam q = true then some (famOne fam oracle data q)
      else alookup q acc.results := by
  induction ns generalizing acc with
  | nil => simp [calcGo]
  | cons m rest ih =>
    rw [calcGo, ih, calcStep_results]
    by_cases hqm : q = m
    · subst hqm
      by_cases hc : famHandles fam q = true
      · by_cases hr : q ∈ rest <;> simp [hr, hc]
      · by_cases hr : q ∈ rest <;> simp [hr, hc]
    · by_cases hr : q ∈ rest
      · by_cases hc : famHandles fam q = true <;> simp [hr, hc, hqm]
      · simp [hr, hqm]

theorem calcGo_calls (fam : Family) (oracle : Oracle) (data : Record)
    (ns : List String) (acc : CalcOut) :
    (calcGo fam oracle data acc ns).calls =
      acc.calls ++ ns.filterMap (famCall fam data) := by
  induction ns generalizing acc with
  | nil => simp [calcGo]
  | cons m rest ih =>
    rw [calcGo, ih, calcStep_calls]
    cases hf : famCall fam data m with
    | none => simp [List.filterMap_cons, hf]
    | some c => simp [List.filterMap_cons, hf]

theorem calcGo_keys (fam : Family) (oracle : Oracle) (data : Record)
    (ns : List String) (acc : CalcOut) (q : String) :
    q ∈ (calcGo fam oracle data acc ns).results.map Prod.fst →
      q ∈ acc.results.map Prod.fst ∨ q ∈ ns := by
  induction ns generalizing acc with
  | nil => exact fun h => Or.inl h
  | cons m rest ih =>
    intro h
    rw [calcGo] at h
    rcases ih _ h with h2 | h2
    · rcases calcStep_keys fam oracle data acc m q h2 with h3 | h3
      · exact Or.inl h3
      · exact Or.inr (by simp [h3])
    · exact Or.inr (by simp [h2])

theorem calcGo_nodup (fam : Family) (oracle : Oracle) (data : Record)
    (ns : List String) (acc : CalcOut) :
    (acc.results.map Prod.fst).Nodup →
      ((calcGo fam oracle data acc ns).results.map Prod.fst).Nodup := by
  induction ns generalizing acc with
  | nil => exact fun h => h
  | cons m rest ih =>
    intro h
    rw [calcGo]
    exact ih _ (calcStep_nodup fam oracle data acc m h)

theorem famCalc_results (fam : Family) (oracle : Oracle) (data : Record)
    (ns : List String) (q : String) :
    alookup q (familyCalc fam oracle data ns).results =
      if q ∈ ns ∧ famHandles fam q = true then some (famOne fam oracle data q)
      else none := by
  unfold familyCalc
  rw [calcGo_results]
  rfl

theorem famCalc_calls (fam : Family) (oracle : Oracle) (data : Record)
    (ns : List String) :
    (familyCalc fam oracle data ns).calls = ns.filterMap (famCall fam data) := by
  unfold familyCalc
  rw [calcGo_calls]
  rfl

theorem famCalc_keys (fam : Family) (oracle : Oracle) (data : Record)
    (ns : List String) (q : String)
    (h : q ∈ (familyCalc fam oracle data ns).results.map Prod.fst) : q ∈ ns := by
  rcases calcGo_keys fam oracle data ns ⟨[], [], []⟩ q h with h2 | h2
  · simp at h2
  · exact h2

theorem famCalc_nodup (fam : Family) (oracle : Oracle) (data : Record)
    (ns : List String) :
    ((familyCalc fam oracle data ns).results.map Prod.fst).Nodup :=
  calcGo_nodup fam oracle data ns ⟨[], [], []⟩ (by simp)

theorem filterMap_famCall_nil (fam : Family) (data : Record)
    (ns : List String) (m : String)
    (h : famCall fam data m = none ∨ m ∉ ns) :
    (ns.filterMap (famCall fam data)).filter (fun c => c.1 == m) = [] := by
  rw [List.filter_eq_nil_iff]
  intro c hc hbeq
  rcases List.mem_filterMap.mp hc with ⟨a, ha, hfa⟩
  have hfst := famCall_fst fam data a c hfa
  have hcm : c.1 = m := by simpa using hbeq
  have ham : a = m := by rw [← hfst, hcm]
  subst ham
  rcases h with h | h
  · rw [h] at hfa
    exact Option.noConfusion hfa
  · exact h ha

/-! Facts about the concrete family tables. -/

theorem famHandles_retr (q : String) (h : q ∈ RetrievalMetrics.supportedMetrics) :
    famHandles retrievalFamily q = true := by
  fin_cases h <;> decide

theorem famHandles_gen (q : String) (h : q ∈ GenerationMetrics.supportedMetrics) :
    famHandles generationFamily q = true := by
  fin_cases h <;> decide

theorem famHandles_sim (emb : Bool) (q : String)
    (h : q ∈ SimilarityMetrics.supportedMetrics) :
    famHandles (similarityFamily emb) q = true := by
  fin_cases h <;> cases emb <;> decide

theorem retr_not_other (q : String) (h : q ∈ RetrievalMetrics.supportedMetrics) :
    q ∉ GenerationMetrics.supportedMetrics ∧ q ∉ SimilarityMetrics.supportedMetrics := by
  fin_cases h <;> exact ⟨by decide, by decide⟩

theorem gen_not_other (q : String) (h : q ∈ GenerationMetrics.supportedMetrics) :
    q ∉ RetrievalMetrics.supportedMetrics ∧ q ∉ SimilarityMetrics.supportedMetrics := by
  fin_cases h <;> exact ⟨by decide, by decide⟩

theorem sim_not_other (q : String) (h : q ∈ SimilarityMetrics.supportedMetrics) :
    q ∉ RetrievalMetrics.supportedMetrics ∧ q ∉ GenerationMetrics.supportedMetrics := by
  fin_cases h <;> exact ⟨by decide, by decide⟩

theorem three_sub_all (q : String) (h : q ∈ threeFamilySupported) :
    get_all_supported_metrics.contains q = true := by
  fin_cases h <;> decide

/-! Characterization of `MetricEvaluator.evaluate`. -/

theorem evaluator_results (oracle : Oracle) (emb : Bool) (data : Record)
    (metrics : List String) (q : String) :
    alookup q (evaluatorEvaluate oracle emb data metrics).results =
      if q ∈ metrics ∧ q ∈ threeFamilySupported then
        some (computeOne oracle emb data q)
      else none := by
  unfold evaluatorEvaluate
  dsimp only
  rw [alookup_dmerge _ _ _ (famCalc_nodup _ _ _ _),
    alookup_dmerge _ _ _ (famCalc_nodup _ _ _ _),
    alookup_dmerge _ _ _ (famCalc_nodup _ _ _ _),
    famCalc_results, famCalc_results, famCalc_results]
  by_cases hR : q ∈ RetrievalMetrics.supportedMetrics
  · obtain ⟨hG, hS⟩ := retr_not_other q hR
    have h3 : q ∈ threeFamilySupported := by
      unfold threeFamilySupported
      simp [hR]
    by_cases hm : q ∈ metrics <;>
      simp [List.mem_filter, hR, hG, hS, hm, h3, famHandles_retr q hR,
        computeOne, alookup]
  · by_cases hG : q ∈ GenerationMetrics.supportedMetrics
    · obtain ⟨hR2, hS⟩ := gen_not_other q hG
      have h3 : q ∈ threeFamilySupported := by
        unfold threeFamilySupported
        simp [hG]
      by_cases hm : q ∈ metrics <;>
        simp [List.mem_filter, hR, hG, hS, hm, h3, famHandles_gen q hG,
          computeOne, alookup]
    · by_cases hS : q ∈ SimilarityMetrics.supportedMetrics
      · have h3 : q ∈ threeFamilySupported := by
          unfold threeFamilySupported
          simp [hS]
        by_cases hm : q ∈ metrics <;>
          simp [List.mem_filter, hR, hG, hS, hm, h3, famHandles_sim emb q hS,
            computeOne, alookup]
      · have h3 : q ∉ threeFamilySupported := by
          unfold threeFamilySupported
          simp [hR, hG, hS]
        simp [List.mem_filter, hR, hG, hS, h3, alookup]

theorem evaluator_calls (oracle : Oracle) (emb : Bool) (data : Record)
    (metrics : List String) :
    (evaluatorEvaluate oracle emb data metrics).calls =
      (metrics.filter (fun m => RetrievalMetrics.supportedMetrics.contains m)).filterMap
          (famCall retrievalFamily data) ++
        (metrics.filter (fun m => GenerationMetrics.supportedMetrics.contains m)).filterMap
          (famCall generationFamily data) ++
        (metrics.filter (fun m => SimilarityMetrics.supportedMetrics.contains m)).filterMap
          (famCall (similarityFamily emb) data) := by
  unfold evaluatorEvaluate
  dsimp only
  rw [famCalc_calls, famCalc_calls, famCalc_calls]

theorem evaluator_keys (oracle : Oracle) (emb : Bool) (data : Record)
    (metrics : List String) (q : String)
    (h : q ∈ (evaluatorEvaluate oracle emb data metrics).results.map Prod.fst) :
    q ∈ metrics := by
  unfold evaluatorEvaluate at h
  dsimp only at h
  rcases keys_dmerge _ _ _ h with h2 | h2
  · rcases keys_dmerge _ _ _ h2 with h3 | h3
    · rcases keys_dmerge _ _ _ h3 with h4 | h4
      · simp at h4
      · exact (List.mem_filter.mp (famCalc_keys _ _ _ _ _ h4)).1
    · exact (List.mem_filter.mp (famCalc_keys _ _ _ _ _ h3)).1
  · exact (List.mem_filter.mp (famCalc_keys _ _ _ _ _ h2)).1

/-! Characterization of the `/evaluate` endpoint body. -/

theorem core_scores (oracle : Oracle) (emb : Bool) (data : Record)
    (metrics : List String) (q : String) :
    alookup q (evaluateMetricsCore oracle emb data metrics).scores =
      if q ∈ metrics ∧ q ∈ threeFamilySupported then
        some (computeOne oracle emb data q)
      else none := by
  unfold evaluateMetricsCore
  dsimp only
  rw [evaluator_results]
  by_cases hT : q ∈ threeFamilySupported
  · have hall : q ∈ get_all_supported_metrics := by simpa using three_sub_all q hT
    by_cases hm : q ∈ metrics <;>
      simp [List.mem_filter, hT, hm, hall]
  · by_cases hm : q ∈ metrics <;> simp [List.mem_filter, hT, hm]

theorem core_calls (oracle : Oracle) (emb : Bool) (data : Record)
    (metrics : List String) :
    (evaluateMetricsCore oracle emb data metrics).calls =
      (evaluatorEvaluate oracle emb data
        (metrics.filter (fun m => get_all_supported_metrics.contains m))).calls := rfl

theorem core_scores_eq (oracle : Oracle) (emb : Bool) (data : Record)
    (metrics : List String) :
    (evaluateMetricsCore oracle emb data metrics).scores =
      (evaluatorEvaluate oracle emb data
        (metrics.filter (fun m => get_all_supported_metrics.contains m))).results := rfl

theorem core_errors (oracle : Oracle) (emb : Bool) (data : Record)
    (metrics : List String) :
    (evaluateMetricsCore oracle emb data metrics).errors =
      if (metrics.filter (fun m => !get_all_supported_metrics.contains m)).isEmpty
      then []
      else [unsupportedMsg
        (metrics.filter (fun m => !get_all_supported_metrics.contains m))] := rfl

theorem core_skipped_of (oracle : Oracle) (emb : Bool) (data : Record)
    (metrics : List String) (q : String)
    (h : alookup q (evaluateMetricsCore oracle emb data metrics).scores = some none) :
    q ∈ (evaluateMetricsCore oracle emb data metrics).skipped := by
  have hmem := mem_of_alookup_eq_some _ _ _ h
  unfold evaluateMetricsCore at hmem ⊢
  dsimp only at hmem ⊢
  exact List.mem_map.mpr ⟨(q, none), List.mem_filter.mpr ⟨hmem, by simp⟩, rfl⟩

theorem core_calculated_of (oracle : Oracle) (emb : Bool) (data : Record)
    (metrics : List String) (q : String) (r : MetricResult)
    (h : alookup q (evaluateMetricsCore oracle emb data metrics).scores =
      some (some r)) :
    q ∈ (evaluateMetricsCore oracle emb data metrics).calculated := by
  have hmem := mem_of_alookup_eq_some _ _ _ h
  unfold evaluateMetricsCore at hmem ⊢
  dsimp only at hmem ⊢
  exact List.mem_map.mpr ⟨(q, some r), List.mem_filter.mpr ⟨hmem, by simp⟩, rfl⟩

theorem core_skipped_sub (oracle : Oracle) (emb : Bool) (data : Record)
    (metrics : List String) (q : String)
    (h : q ∈ (evaluateMetricsCore oracle emb data metrics).skipped) :
    q ∈ metrics ∧ get_all_supported_metrics.contains q = true := by
  unfold evaluateMetricsCore at h
  dsimp only at h
  rcases List.mem_map.mp h with ⟨p, hp, hq⟩
  have hp2 := (List.mem_filter.mp hp).1
  have hkeys : q ∈ (evaluatorEvaluate oracle emb data
      (metrics.filter (fun m => get_all_supported_metrics.contains m))).results.map Prod.fst :=
    List.mem_map.mpr ⟨p, hp2, hq⟩
  have h2 := evaluator_keys oracle emb data _ q hkeys
  have h3 := List.mem_filter.mp h2
  exact ⟨h3.1, by simpa using h3.2⟩

theorem core_calculated_sub (oracle : Oracle) (emb : Bool) (data : Record)
    (metrics : List String) (q : String)
    (h : q ∈ (evaluateMetricsCore oracle emb data metrics).calculated) :
    q ∈ metrics ∧ get_all_supported_metrics.contains q = true := by
  unfold evaluateMetricsCore at h
  dsimp only at h
  rcases List.mem_map.mp h with ⟨p, hp, hq⟩
  have hp2 := (List.mem_filter.mp hp).1
  have hkeys : q ∈ (evaluatorEvaluate oracle emb data
      (metrics.filter (fun m => get_all_supported_metrics.contains m))).results.map Prod.fst :=
    List.mem_map.mpr ⟨p, hp2, hq⟩
  have h2 := evaluator_keys oracle emb data _ q hkeys
  have h3 := List.mem_filter.mp h2
  exact ⟨h3.1, by simpa using h3.2⟩

/-! Validation-skip lemmas for the `_prepare_sample` projections. -/

theorem genPrepare_none_falsy_ui (data : Record) (m : String)
    (h : falsy (Record.get data "user_input") = true) :
    GenerationMetrics.prepareSample data m = none := by
  unfold GenerationMetrics.prepareSample
  dsimp only
  by_cases h1 : m = "faithfulness"
  · rw [if_pos h1]
    cases hctx : Record.get data "retrieved_contexts" <;> simp [hctx, h]
  · rw [if_neg h1]
    by_cases h2 : m = "answer_relevancy"
    · rw [if_pos h2]
      simp [h]
    · rw [if_neg h2]
      by_cases h3 : m = "answer_correctness"
      · rw [if_pos h3]
        cases href : Record.get data "reference" <;> simp [href, h]
      · rw [if_neg h3]
        simp [h]

theorem genPrepare_none_falsy_resp (data : Record) (m : String)
    (h : falsy (Record.get data "response") = true) :
    GenerationMetrics.prepareSample data m = none := by
  unfold GenerationMetrics.prepareSample
  dsimp only
  by_cases h1 : m = "faithfulness"
  · rw [if_pos h1]
    cases hctx : Record.get data "retrieved_contexts" <;> simp [hctx, h]
  · rw [if_neg h1]
    by_cases h2 : m = "answer_relevancy"
    · rw [if_pos h2]
      simp [h]
    · rw [if_neg h2]
      by_cases h3 : m = "answer_correctness"
      · rw [if_pos h3]
        cases href : Record.get data "reference" <;> simp [href, h]
      · rw [if_neg h3]
        simp [h]

theorem genPrepare_none_faith_ctx (data : Record)
    (h : Record.get data "retrieved_contexts" = none) :
    GenerationMetrics.prepareSample data "faithfulness" = none := by
  unfold GenerationMetrics.prepareSample
  simp [h]

theorem genPrepare_none_corr_ref (data : Record)
    (h : Record.get data "reference" = none) :
    GenerationMetrics.prepareSample data "answer_correctness" = none := by
  unfold GenerationMetrics.prepareSample
  simp [h]

theorem retrPrepare_none_falsy_ui (data : Record) (m : String)
    (h : falsy (Record.get data "user_input") = true) :
    RetrievalMetrics.prepareSample data m = none := by
  unfold RetrievalMetrics.prepareSample
  dsimp only
  by_cases h1 : m = "context_precision"
  · rw [if_pos h1]
    cases hr : Record.get data "response" <;> simp [hr, h]
  · rw [if_neg h1]
    by_cases h2 : m = "context_precision_with_ref"
    · rw [if_pos h2]
      cases hr : Record.get data "reference" <;> simp [hr, h]
    · rw [if_neg h2]
      by_cases h3 : m = "context_recall"
      · rw [if_pos h3]
        cases hr : Record.get data "reference" <;> simp [hr, h]
      · rw [if_neg h3]
        simp [h]

theorem retrPrepare_none_falsy_ctx (data : Record) (m : String)
    (h : falsy (Record.get data "retrieved_contexts") = true) :
    RetrievalMetrics.prepareSample data m = none := by
  unfold RetrievalMetrics.prepareSample
  dsimp only
  by_cases h1 : m = "context_precision"
  · rw [if_pos h1]
    cases hr : Record.get data "response" <;> simp [hr, h]
  · rw [if_neg h1]
    by_cases h2 : m = "context_precision_with_ref"
    · rw [if_pos h2]
      cases hr : Record.get data "reference" <;> simp [hr, h]
    · rw [if_neg h2]
      by_cases h3 : m = "context_recall"
      · rw [if_pos h3]
        cases hr : Record.get data "reference" <;> simp [hr, h]
      · rw [if_neg h3]
        simp [h]

theorem retrPrepare_none_cp_resp (data : Record)
    (h : Record.get data "response" = none) :
    RetrievalMetrics.prepareSample data "context_precision" = none := by
  unfold RetrievalMetrics.prepareSample
  simp [h]

theorem retrPrepare_none_cpr_ref (data : Record)
    (h : Record.get data "reference" = none) :
    RetrievalMetrics.prepareSample data "context_precision_with_ref" = none := by
  unfold RetrievalMetrics.prepareSample
  simp [h]

theorem retrPrepare_none_cr_ref (data : Record)
    (h : Record.get data "reference" = none) :
    RetrievalMetrics.prepareSample data "context_recall" = none := by
  unfold RetrievalMetrics.prepareSample
  simp [h]

theorem simPrepare_none_resp (data : Record) (m : String)
    (h : Record.get data "response" = none) :
    SimilarityMetrics.prepareSample data m = none := by
  unfold SimilarityMetrics.prepareSample
  rw [h]

theorem simPrepare_none_ref (data : Record) (m : String)
    (h : Record.get data "reference" = none) :
    SimilarityMetrics.prepareSample data m = none := by
  unfold SimilarityMetrics.prepareSample
  rw [h]
  cases hr : Record.get data "response" <;> rfl

/-! Lemmas about the model resource cache. -/

theorem supported_provider_cases (prov : String) (cat : Catalog)
    (h : SUPPORTED_MODELS prov = some cat) :
    prov = "openai" ∨ prov = "anthropic" := by
  unfold SUPPORTED_MODELS at h
  by_cases h1 : prov = "openai"
  · exact Or.inl h1
  · rw [if_neg h1] at h
    by_cases h2 : prov = "anthropic"
    · exact Or.inr h2
    · rw [if_neg h2] at h
      exact Option.noConfusion h

theorem getLLM_ok_cached (cfg : Config) (st : MMState)
    (p m : Option String) (prov mod : String) (h : Handle) (st2 : MMState)
    (hres : resolveLLM cfg p m = (prov, mod))
    (heq : getLLM cfg st p m = (Except.ok h, st2)) :
    alookup (cacheKeyOf prov mod) st2.llmCache = some h := by
  unfold resolveLLM at hres
  injection hres with hprov hmod
  subst hprov
  subst hmod
  unfold getLLM at heq
  dsimp only at heq
  split at heq
  · simp at heq
  · split at heq
    · simp at heq
    · split at heq
      · rename_i h0 hcache
        obtain ⟨hh, hst⟩ := Prod.mk.injEq .. |>.mp heq
        obtain rfl : h0 = h := Except.ok.inj hh
        rw [← hst]
        exact hcache
      · rename_i hmiss
        split at heq
        · split at heq
          · simp at heq
          · obtain ⟨hh, hst⟩ := Prod.mk.injEq .. |>.mp heq
            obtain rfl : st.nextId = h := Except.ok.inj hh
            rw [← hst]
            simp [alookup_dinsert]
        · split at heq
          · split at heq
            · simp at heq
            · obtain ⟨hh, hst⟩ := Prod.mk.injEq .. |>.mp heq
              obtain rfl : st.nextId = h := Except.ok.inj hh
              rw [← hst]
              simp [alookup_dinsert]
          · simp at heq

theorem getLLM_ok_of_cached (cfg : Config) (st : MMState)
    (p m : Option String) (prov mod : String) (h0 h : Handle) (st2 : MMState)
    (hres : resolveLLM cfg p m = (prov, mod))
    (hcache : alookup (cacheKeyOf prov mod) st.llmCache = some h0)
    (heq : getLLM cfg st p m = (Except.ok h, st2)) :
    h = h0 ∧ st2 = st := by
  unfold resolveLLM at hres
  injection hres with hprov hmod
  subst hprov
  subst hmod
  unfold getLLM at heq
  dsimp only at heq
  split at heq
  · simp at heq
  · split at heq
    · simp at heq
    · split at heq
      · rename_i h1 hc1
        obtain ⟨hh, hst⟩ := Prod.mk.injEq .. |>.mp heq
        obtain rfl : h1 = h := Except.ok.inj hh
        rw [hc1] at hcache
        exact ⟨Option.some.inj hcache, hst.symm⟩
      · rename_i hc2
        rw [hcache] at hc2
        exact Option.noConfusion hc2

theorem getLLM_preserve (cfg : Config) (st : MMState) (p m : Option String)
    (k : String) (h0 : Handle)
    (hcache : alookup k st.llmCache = some h0) :
    alookup k (getLLM cfg st p m).2.llmCache = some h0 := by
  unfold getLLM
  dsimp only
  split
  · exact hcache
  · split
    · exact hcache
    · split
      · exact hcache
      · rename_i hmiss
        split
        · split
          · exact hcache
          · dsimp only
            rw [alookup_dinsert]
            by_cases hk : k = cacheKeyOf (pyOr p cfg.DEFAULT_PROVIDER)
                (pyOr m cfg.DEFAULT_LLM_MODEL)
            · rw [hk] at hcache
              rw [hcache] at hmiss
              exact Option.noConfusion hmiss
            · rw [if_neg hk]
              exact hcache
        · split
          · split
            · exact hcache
            · dsimp only
              rw [alookup_dinsert]
              by_cases hk : k = cacheKeyOf (pyOr p cfg.DEFAULT_PROVIDER)
                  (pyOr m cfg.DEFAULT_LLM_MODEL)
              · rw [hk] at hcache
                rw [hcache] at hmiss
                exact Option.noConfusion hmiss
              · rw [if_neg hk]
                exact hcache
          · exact hcache

theorem runGetLLM_preserve (cfg : Config) (reqs : List (Option String × Option String))
    (st : MMState) (k : String) (h0 : Handle)
    (hcache : alookup k st.llmCache = some h0) :
    alookup k (runGetLLM cfg st reqs).1.llmCache = some h0 := by
  induction reqs generalizing st with
  | nil => simpa [runGetLLM] using hcache
  | cons r rest ih =>
    obtain ⟨p, m⟩ := r
    rw [runGetLLM]
    dsimp only
    exact ih _ (getLLM_preserve cfg st p m k h0 hcache)

/-! Dispatch helpers for the endpoint-level claims. -/

theorem contains_eq_false_of_not_mem {l : List String} {a : String}
    (h : a ∉ l) : l.contains a = false := by
  cases hval : l.contains a
  · rfl
  · exact absurd (List.elem_iff.mp hval) h

theorem famOne_none_of_prepare (fam : Family) (oracle : Oracle) (data : Record)
    (m : String) (hp : fam.prepare data m = none) :
    famOne fam oracle data m = none := by
  unfold famOne
  split
  · rw [hp]
  · rfl

theorem famCall_none_of_prepare (fam : Family) (data : Record)
    (m : String) (hp : fam.prepare data m = none) :
    famCall fam data m = none := by
  unfold famCall
  split
  · rw [hp]
    rfl
  · rfl

theorem famOne_none_of_fail (fam : Family) (oracle : Oracle) (data : Record)
    (m : String) (eX : String) (h : ∀ s, oracle m s = Except.error eX) :
    famOne fam oracle data m = none := by
  unfold famOne
  split
  · cases hp : fam.prepare data m with
    | none => rfl
    | some s =>
      dsimp only
      rw [h s]
  · rfl

theorem dispatch_retr (oracle : Oracle) (emb : Bool) (data : Record) (m : String)
    (hm : m ∈ RetrievalMetrics.supportedMetrics) :
    computeOne oracle emb data m = famOne retrievalFamily oracle data m ∧
    callOf emb data m = famCall retrievalFamily data m := by
  have hc : RetrievalMetrics.supportedMetrics.contains m = true := List.elem_iff.mpr hm
  constructor
  · unfold computeOne
    rw [if_pos hc]
  · unfold callOf
    rw [if_pos hc]

theorem dispatch_gen (oracle : Oracle) (emb : Bool) (data : Record) (m : String)
    (hm : m ∈ GenerationMetrics.supportedMetrics) :
    computeOne oracle emb data m = famOne generationFamily oracle data m ∧
    callOf emb data m = famCall generationFamily data m := by
  obtain ⟨hnR, _⟩ := gen_not_other m hm
  have hR : RetrievalMetrics.supportedMetrics.contains m = false :=
    contains_eq_false_of_not_mem hnR
  have hc : GenerationMetrics.supportedMetrics.contains m = true := List.elem_iff.mpr hm
  constructor
  · unfold computeOne
    rw [hR]
    simp only [Bool.false_eq_true, if_false]
    rw [if_pos hc]
  · unfold callOf
    rw [hR]
    simp only [Bool.false_eq_true, if_false]
    rw [if_pos hc]

theorem dispatch_sim (oracle : Oracle) (emb : Bool) (data : Record) (m : String)
    (hm : m ∈ SimilarityMetrics.supportedMetrics) :
    computeOne oracle emb data m = famOne (similarityFamily emb) oracle data m ∧
    callOf emb data m = famCall (similarityFamily emb) data m := by
  obtain ⟨hnR, hnG⟩ := sim_not_other m hm
  have hR : RetrievalMetrics.supportedMetrics.contains m = false :=
    contains_eq_false_of_not_mem hnR
  have hG : GenerationMetrics.supportedMetrics.contains m = false :=
    contains_eq_false_of_not_mem hnG
  have hc : SimilarityMetrics.supportedMetrics.contains m = true := List.elem_iff.mpr hm
  constructor
  · unfold computeOne
    rw [hR, hG]
    simp only [Bool.false_eq_true, if_false]
    rw [if_pos hc]
  · unfold callOf
    rw [hR, hG]
    simp only [Bool.false_eq_true, if_false]
    rw [if_pos hc]

theorem notin_family_names (metrics sup : List String) (m : String)
    (h : m ∉ sup) : m ∉ metrics.filter (fun x => sup.contains x) := by
  intro hin
  exact h (by simpa using (List.mem_filter.mp hin).2)

theorem core_metric_null (oracle : Oracle) (emb : Bool) (data : Record)
    (metrics : List String) (m : String)
    (hm : m ∈ metrics) (hsup : m ∈ threeFamilySupported)
    (hone : computeOne oracle emb data m = none) :
    alookup m (evaluateMetricsCore oracle emb data metrics).scores = some none ∧
    m ∈ (evaluateMetricsCore oracle emb data metrics).skipped := by
  have hs : alookup m (evaluateMetricsCore oracle emb data metrics).scores =
      some none := by
    rw [core_scores, if_pos ⟨hm, hsup⟩, hone]
  exact ⟨hs, core_skipped_of oracle emb data metrics m hs⟩

theorem core_metric_nocall (oracle : Oracle) (emb : Bool) (data : Record)
    (metrics : List String) (m : String)
    (hR : famCall retrievalFamily data m = none ∨
      m ∉ RetrievalMetrics.supportedMetrics)
    (hG : famCall generationFamily data m = none ∨
      m ∉ GenerationMetrics.supportedMetrics)
    (hS : famCall (similarityFamily emb) data m = none ∨
      m ∉ SimilarityMetrics.supportedMetrics) :
    (evaluateMetricsCore oracle emb data metrics).calls.filter
      (fun c => c.1 == m) = [] := by
  rw [core_calls, evaluator_calls, List.filter_append, List.filter_append]
  rw [filterMap_famCall_nil _ _ _ _ ?hR, filterMap_famCall_nil _ _ _ _ ?hG,
    filterMap_famCall_nil _ _ _ _ ?hS]
  · rfl
  case hR =>
    rcases hR with h | h
    · exact Or.inl h
    · exact Or.inr (notin_family_names _ _ m h)
  case hG =>
    rcases hG with h | h
    · exact Or.inl h
    · exact Or.inr (notin_family_names _ _ m h)
  case hS =>
    rcases hS with h | h
    · exact Or.inl h
    · exact Or.inr (notin_family_names _ _ m h)

/-! Claim theorems. -/

/-- C1: the registry supports `coherence`, the record carries both of its
required fields, the scoring capability succeeds, and the aspect-critique
handler would compute it — yet `evaluate` makes no scoring call for it and
the merged result mapping has no entry for it (nor any skipped, calculated
or error trace): the endpoint accepts the metric as valid and then silently
drops it, contradicting the claim that every supported, satisfiable metric
gets exactly one scoring call and a result entry. -/
theorem C1_aspect_metric_silently_dropped :
    get_all_supported_metrics.contains "coherence" = true ∧
    (AspectCriticMetrics.prepareSample dataQA "coherence").isSome = true ∧
    (familyCalc aspectCriticFamily oracleOK dataQA ["coherence"]).results =
      [("coherence", some (.num 1))] ∧
    (evaluateMetricsCore oracleOK true dataQA ["coherence"]).scores = [] ∧
    (evaluateMetricsCore oracleOK true dataQA ["coherence"]).calls = [] ∧
    (evaluateMetricsCore oracleOK true dataQA ["coherence"]).errors = [] ∧
    (evaluateMetricsCore oracleOK true dataQA ["coherence"]).calculated = [] ∧
    (evaluateMetricsCore oracleOK true dataQA ["coherence"]).skipped = [] := by
  exact ⟨by decide, rfl, rfl, rfl, rfl, rfl, rfl, rfl⟩

/-- C3: the requirements-introspection endpoint returns only the retrieval,
generation and similarity families; none of the four aspect-critique metric
names appears anywhere in its response, although the registry lists all
four as supported and `AspectCriticMetrics.get_metric_requirements` (never
wired into the endpoint) does map each of them to `user_input, response`. -/
theorem C3_requirements_endpoint_omits_aspect :
    metricRequirementsResponse.map Prod.fst =
      ["retrieval", "generation", "similarity"] ∧
    metricRequirementsResponse.map (fun p => p.2.map Prod.fst) =
      [["context_precision", "context_precision_with_ref", "context_recall"],
       ["faithfulness", "answer_relevancy", "answer_correctness"],
       ["semantic_similarity", "bleu_score", "rouge_score"]] ∧
    get_all_supported_metrics.contains "coherence" = true ∧
    get_all_supported_metrics.contains "conciseness" = true ∧
    get_all_supported_metrics.contains "harmfulness" = true ∧
    get_all_supported_metrics.contains "maliciousness" = true ∧
    alookup "coherence" AspectCriticMetrics.getMetricRequirements =
      some ["user_input", "response"] ∧
    alookup "conciseness" AspectCriticMetrics.getMetricRequirements =
      some ["user_input", "response"] ∧
    alookup "harmfulness" AspectCriticMetrics.getMetricRequirements =
      some ["user_input", "response"] ∧
    alookup "maliciousness" AspectCriticMetrics.getMetricRequirements =
      some ["user_input", "response"] := by
  exact ⟨rfl, rfl, by decide, by decide, by decide, by decide, rfl, rfl, rfl, rfl⟩

/-- C4 counterexample: for the out-of-registry name `bogus_metric`, the
group lookup `get_metric_handler` does not fail with an UnknownMetric
error — it returns normally with `None` (Python `dict.get` semantics). -/
theorem C4_counterexample :
    get_all_supported_metrics.contains "bogus_metric" = false ∧
    get_metric_handler "bogus_metric" = none := by
  exact ⟨by decide, rfl⟩

/-- C4 amended: for every metric name not present in the registry, the
group lookup `get_metric_handler` returns `None` (no handler) rather than
raising. -/
theorem C4_unknown_lookup_returns_none (name : String)
    (h : get_all_supported_metrics.contains name = false) :
    get_metric_handler name = none := by
  apply alookup_eq_none
  intro hmem
  have h2 : get_all_supported_metrics.contains name = true :=
    List.elem_iff.mpr hmem
  rw [h] at h2
  exact Bool.noConfusion h2

/-- C4 witness: the amended lookup behaviour at the concrete name
`response_relevancy`, which is constructed by the retrieval handler but not
registered. -/
theorem C4_unknown_lookup_witness :
    get_all_supported_metrics.contains "response_relevancy" = false ∧
    get_metric_handler "response_relevancy" = none :=
  ⟨by decide, C4_unknown_lookup_returns_none "response_relevancy" (by decide)⟩

/-- C5: a requested name outside the registry is surfaced in the outcome
errors inside the unsupported-metrics warning, gets no scoring call, no
entry in the scores mapping, and appears in neither the calculated nor the
skipped list. -/
theorem C5_unsupported_metric_reported (oracle : Oracle) (emb : Bool)
    (data : Record) (metrics : List String) (name : String)
    (hmem : name ∈ metrics)
    (hunsup : get_all_supported_metrics.contains name = false) :
    (evaluateMetricsCore oracle emb data metrics).errors =
      [unsupportedMsg
        (metrics.filter (fun m => !get_all_supported_metrics.contains m))] ∧
    name ∈ metrics.filter (fun m => !get_all_supported_metrics.contains m) ∧
    (evaluateMetricsCore oracle emb data metrics).calls.filter
      (fun c => c.1 == name) = [] ∧
    alookup name (evaluateMetricsCore oracle emb data metrics).scores = none ∧
    name ∉ (evaluateMetricsCore oracle emb data metrics).calculated ∧
    name ∉ (evaluateMetricsCore oracle emb data metrics).skipped := by
  have hinv : name ∈ metrics.filter (fun m => !get_all_supported_metrics.contains m) :=
    List.mem_filter.mpr ⟨hmem, by rw [hunsup]; rfl⟩
  have hR : name ∉ RetrievalMetrics.supportedMetrics := by
    intro hmm
    have h3 : name ∈ threeFamilySupported := by
      unfold threeFamilySupported
      simp [hmm]
    have h4 := three_sub_all name h3
    rw [hunsup] at h4
    exact Bool.noConfusion h4
  have hG : name ∉ GenerationMetrics.supportedMetrics := by
    intro hmm
    have h3 : name ∈ threeFamilySupported := by
      unfold threeFamilySupported
      simp [hmm]
    have h4 := three_sub_all name h3
    rw [hunsup] at h4
    exact Bool.noConfusion h4
  have hS : name ∉ SimilarityMetrics.supportedMetrics := by
    intro hmm
    have h3 : name ∈ threeFamilySupported := by
      unfold threeFamilySupported
      simp [hmm]
    have h4 := three_sub_all name h3
    rw [hunsup] at h4
    exact Bool.noConfusion h4
  have hT : name ∉ threeFamilySupported := by
    intro h3
    have h4 := three_sub_all name h3
    rw [hunsup] at h4
    exact Bool.noConfusion h4
  refine ⟨?_, hinv, ?_, ?_, ?_, ?_⟩
  · have hne : metrics.filter (fun m => !get_all_supported_metrics.contains m) ≠ [] :=
      List.ne_nil_of_mem hinv
    rw [core_errors, if_neg (by simpa using hne)]
  · exact core_metric_nocall oracle emb data metrics name
      (Or.inr hR) (Or.inr hG) (Or.inr hS)
  · rw [core_scores, if_neg (fun hand => hT hand.2)]
  · intro h
    have h2 := (core_calculated_sub oracle emb data metrics name h).2
    rw [hunsup] at h2
    exact Bool.noConfusion h2
  · intro h
    have h2 := (core_skipped_sub oracle emb data metrics name h).2
    rw [hunsup] at h2
    exact Bool.noConfusion h2

/-- C5 witness: the concrete request `["bogus_metric", "context_precision"]`
on the scenario-A record. -/
theorem C5_unsupported_metric_witness :
    "bogus_metric" ∈ (["bogus_metric", "context_precision"] : List String) ∧
    get_all_supported_metrics.contains "bogus_metric" = false ∧
    alookup "bogus_metric" (evaluateMetricsCore oracleOK true dataFull
      ["bogus_metric", "context_precision"]).scores = none ∧
    "bogus_metric" ∉ (evaluateMetricsCore oracleOK true dataFull
      ["bogus_metric", "context_precision"]).skipped := by
  refine ⟨by decide, by decide, ?_, ?_⟩
  · exact (C5_unsupported_metric_reported oracleOK true dataFull
      ["bogus_metric", "context_precision"] "bogus_metric"
      (by decide) (by decide)).2.2.2.1
  · exact (C5_unsupported_metric_reported oracleOK true dataFull
      ["bogus_metric", "context_precision"] "bogus_metric"
      (by decide) (by decide)).2.2.2.2.2

/-- C9: with no embeddings handle the similarity group constructs with only
the bleu and rouge metrics, and a request for `semantic_similarity` yields
a null entry with no scoring call and no log or error entry beyond the
console skip line; at the endpoint the outcome carries a null score, no
call and an empty errors list. -/
theorem C9_semantic_similarity_without_embeddings (oracle : Oracle)
    (data : Record) :
    (similarityFamily false).keys = ["bleu_score", "rouge_score"] ∧
    (familyCalc (similarityFamily false) oracle data
      ["semantic_similarity"]).results = [("semantic_similarity", none)] ∧
    (familyCalc (similarityFamily false) oracle data
      ["semantic_similarity"]).calls = [] ∧
    (familyCalc (similarityFamily false) oracle data
      ["semantic_similarity"]).log =
      ["Skipping semantic_similarity: embeddings not available"] ∧
    (evaluateMetricsCore oracle false data ["semantic_similarity"]).scores =
      [("semantic_similarity", none)] ∧
    (evaluateMetricsCore oracle false data ["semantic_similarity"]).calls = [] ∧
    (evaluateMetricsCore oracle false data ["semantic_similarity"]).errors = [] ∧
    (evaluateMetricsCore oracle false data ["semantic_similarity"]).skipped =
      ["semantic_similarity"] := by
  exact ⟨rfl, rfl, rfl, rfl, rfl, rfl, rfl, rfl⟩

/-- Helper: a retrieval-family metric whose projection fails is nulled,
listed as skipped, and never scored. -/
theorem core_null_retr (oracle : Oracle) (emb : Bool) (data : Record)
    (metrics : List String) (m : String)
    (hmem : m ∈ metrics) (hsup : m ∈ RetrievalMetrics.supportedMetrics)
    (hp : RetrievalMetrics.prepareSample data m = none) :
    alookup m (evaluateMetricsCore oracle emb data metrics).scores = some none ∧
    m ∈ (evaluateMetricsCore oracle emb data metrics).skipped ∧
    (evaluateMetricsCore oracle emb data metrics).calls.filter
      (fun c => c.1 == m) = [] := by
  have h3 : m ∈ threeFamilySupported := by
    unfold threeFamilySupported
    simp [hsup]
  have hone : computeOne oracle emb data m = none := by
    rw [(dispatch_retr oracle emb data m hsup).1]
    exact famOne_none_of_prepare _ _ _ _ hp
  obtain ⟨ha, hb⟩ := core_metric_null oracle emb data metrics m hmem h3 hone
  obtain ⟨hnG, hnS⟩ := retr_not_other m hsup
  exact ⟨ha, hb, core_metric_nocall oracle emb data metrics m
    (Or.inl (famCall_none_of_prepare _ _ _ hp)) (Or.inr hnG) (Or.inr hnS)⟩

/-- Helper: a generation-family metric whose projection fails is nulled,
listed as skipped, and never scored. -/
theorem core_null_gen (oracle : Oracle) (emb : Bool) (data : Record)
    (metrics : List String) (m : String)
    (hmem : m ∈ metrics) (hsup : m ∈ GenerationMetrics.supportedMetrics)
    (hp : GenerationMetrics.prepareSample data m = none) :
    alookup m (evaluateMetricsCore oracle emb data metrics).scores = some none ∧
    m ∈ (evaluateMetricsCore oracle emb data metrics).skipped ∧
    (evaluateMetricsCore oracle emb data metrics).calls.filter
      (fun c => c.1 == m) = [] := by
  have h3 : m ∈ threeFamilySupported := by
    unfold threeFamilySupported
    simp [hsup]
  have hone : computeOne oracle emb data m = none := by
    rw [(dispatch_gen oracle emb data m hsup).1]
    exact famOne_none_of_prepare _ _ _ _ hp
  obtain ⟨ha, hb⟩ := core_metric_null oracle emb data metrics m hmem h3 hone
  obtain ⟨hnR, hnS⟩ := gen_not_other m hsup
  exact ⟨ha, hb, core_metric_nocall oracle emb data metrics m
    (Or.inr hnR) (Or.inl (famCall_none_of_prepare _ _ _ hp)) (Or.inr hnS)⟩

/-- Helper: a similarity-family metric whose projection fails is nulled,
listed as skipped, and never scored. -/
theorem core_null_sim (oracle : Oracle) (emb : Bool) (data : Record)
    (metrics : List String) (m : String)
    (hmem : m ∈ metrics) (hsup : m ∈ SimilarityMetrics.supportedMetrics)
    (hp : SimilarityMetrics.prepareSample data m = none) :
    alookup m (evaluateMetricsCore oracle emb data metrics).scores = some none ∧
    m ∈ (evaluateMetricsCore oracle emb data metrics).skipped ∧
    (evaluateMetricsCore oracle emb data metrics).calls.filter
      (fun c => c.1 == m) = [] := by
  have h3 : m ∈ threeFamilySupported := by
    unfold threeFamilySupported
    simp [hsup]
  have hone : computeOne oracle emb data m = none := by
    rw [(dispatch_sim oracle emb data m hsup).1]
    exact famOne_none_of_prepare _ _ _ _ hp
  obtain ⟨ha, hb⟩ := core_metric_null oracle emb data metrics m hmem h3 hone
  obtain ⟨hnR, hnG⟩ := sim_not_other m hsup
  exact ⟨ha, hb, core_metric_nocall oracle emb data metrics m
    (Or.inr hnR) (Or.inr hnG) (Or.inl (famCall_none_of_prepare _ _ _ hp))⟩

/-- C2 counterexample: with a scoring capability that raises on
`faithfulness` (the console log proves the failure happened), the request
`[faithfulness, answer_relevancy]` yields a null faithfulness score and a
successful sibling, but the outcome errors list stays empty — no entry
naming the failed metric is ever appended. -/
theorem C2_counterexample :
    alookup "faithfulness" (evaluateMetricsCore oracleC2 true dataFull
      ["faithfulness", "answer_relevancy"]).scores = some none ∧
    alookup "answer_relevancy" (evaluateMetricsCore oracleC2 true dataFull
      ["faithfulness", "answer_relevancy"]).scores = some (some (.num 1)) ∧
    (evaluateMetricsCore oracleC2 true dataFull
      ["faithfulness", "answer_relevancy"]).log =
      ["Error calculating faithfulness: boom"] ∧
    (evaluateMetricsCore oracleC2 true dataFull
      ["faithfulness", "answer_relevancy"]).errors = [] := by
  exact ⟨rfl, rfl, rfl, rfl⟩

/-- C2 amended: when the scoring capability for a routed metric X always
raises, the outcome records a null score for X and lists it as skipped, any
sibling Y whose computation succeeds keeps its non-null result and is
listed as calculated, and the outcome errors list never depends on the
scoring capability at all — computation failures are not surfaced in
errors. -/
theorem C2_failure_isolated (oracle : Oracle) (emb : Bool) (data : Record)
    (metrics : List String) (X Y : String) (eX : String) (rY : MetricResult)
    (hXmem : X ∈ metrics) (hXfam : X ∈ threeFamilySupported)
    (hXfail : ∀ s, oracle X s = Except.error eX)
    (hYmem : Y ∈ metrics) (hYfam : Y ∈ threeFamilySupported)
    (hYok : computeOne oracle emb data Y = some rY) :
    alookup X (evaluateMetricsCore oracle emb data metrics).scores =
      some none ∧
    X ∈ (evaluateMetricsCore oracle emb data metrics).skipped ∧
    alookup Y (evaluateMetricsCore oracle emb data metrics).scores =
      some (some rY) ∧
    Y ∈ (evaluateMetricsCore oracle emb data metrics).calculated ∧
    ∀ oracle2 : Oracle,
      (evaluateMetricsCore oracle emb data metrics).errors =
        (evaluateMetricsCore oracle2 emb data metrics).errors := by
  have hXone : computeOne oracle emb data X = none := by
    have hX3 : X ∈ RetrievalMetrics.supportedMetrics ∨
        X ∈ GenerationMetrics.supportedMetrics ∨
        X ∈ SimilarityMetrics.supportedMetrics := by
      simpa [threeFamilySupported] using hXfam
    rcases hX3 with h | h | h
    · rw [(dispatch_retr oracle emb data X h).1]
      exact famOne_none_of_fail _ _ _ _ eX hXfail
    · rw [(dispatch_gen oracle emb data X h).1]
      exact famOne_none_of_fail _ _ _ _ eX hXfail
    · rw [(dispatch_sim oracle emb data X h).1]
      exact famOne_none_of_fail _ _ _ _ eX hXfail
  obtain ⟨hXs, hXskip⟩ :=
    core_metric_null oracle emb data metrics X hXmem hXfam hXone
  have hYs : alookup Y (evaluateMetricsCore oracle emb data metrics).scores =
      some (some rY) := by
    rw [core_scores, if_pos ⟨hYmem, hYfam⟩, hYok]
  exact ⟨hXs, hXskip, hYs,
    core_calculated_of oracle emb data metrics Y rY hYs, fun oracle2 => rfl⟩

/-- C2 witness: the amended statement at the concrete failing capability
`oracleC2` on the scenario-A record. -/
theorem C2_failure_isolated_witness :
    alookup "faithfulness" (evaluateMetricsCore oracleC2 true dataFull
      ["faithfulness", "answer_relevancy"]).scores = some none ∧
    "faithfulness" ∈ (evaluateMetricsCore oracleC2 true dataFull
      ["faithfulness", "answer_relevancy"]).skipped ∧
    "answer_relevancy" ∈ (evaluateMetricsCore oracleC2 true dataFull
      ["faithfulness", "answer_relevancy"]).calculated := by
  have h := C2_failure_isolated oracleC2 true dataFull
    ["faithfulness", "answer_relevancy"] "faithfulness" "answer_relevancy"
    "boom" (.num 1) (by decide) (by decide) (fun s => rfl)
    (by decide) (by decide) rfl
  exact ⟨h.1, h.2.1, h.2.2.2.1⟩

/-- C6 counterexample: `coherence` is a registry metric requiring
`user_input`, the record lacks that field, yet the outcome has no null
entry for it and the skipped list is empty — the quantification over every
registry metric fails for the aspect-critique family, which `evaluate`
drops entirely. -/
theorem C6_counterexample :
    get_all_supported_metrics.contains "coherence" = true ∧
    alookup "coherence" AspectCriticMetrics.getMetricRequirements =
      some ["user_input", "response"] ∧
    Record.get dataRespOnly "user_input" = none ∧
    (evaluateMetricsCore oracleOK true dataRespOnly ["coherence"]).scores = [] ∧
    (evaluateMetricsCore oracleOK true dataRespOnly ["coherence"]).skipped = [] := by
  exact ⟨by decide, rfl, rfl, rfl, rfl⟩

/-- C6 amended: for every requested metric of the three routed families
(retrieval, generation, similarity) with a required field absent from the
record, the result is null, the name is listed as skipped, and no scoring
call is made for it. -/
theorem C6_missing_required_field_skipped (oracle : Oracle) (emb : Bool)
    (data : Record) (metrics : List String) (m f : String)
    (reqs : List String)
    (hreq : alookup m requirementsThree = some reqs)
    (hf : f ∈ reqs)
    (habs : Record.get data f = none)
    (hm : m ∈ metrics) :
    alookup m (evaluateMetricsCore oracle emb data metrics).scores =
      some none ∧
    m ∈ (evaluateMetricsCore oracle emb data metrics).skipped ∧
    (evaluateMetricsCore oracle emb data metrics).calls.filter
      (fun c => c.1 == m) = [] := by
  simp only [requirementsThree, RetrievalMetrics.getMetricRequirements,
    GenerationMetrics.getMetricRequirements,
    SimilarityMetrics.getMetricRequirements, List.cons_append,
    List.nil_append, alookup] at hreq
  split_ifs at hreq with h1 h2 h3 h4 h5 h6 h7 h8 h9
  · subst h1
    obtain rfl : reqs = ["user_input", "response", "retrieved_contexts"] :=
      (Option.some.inj hreq).symm
    rcases (by simpa using hf :
        f = "user_input" ∨ f = "response" ∨ f = "retrieved_contexts") with
      rfl | rfl | rfl
    · exact core_null_retr oracle emb data metrics _ hm (by decide)
        (retrPrepare_none_falsy_ui data _ (by rw [habs]; rfl))
    · exact core_null_retr oracle emb data metrics _ hm (by decide)
        (retrPrepare_none_cp_resp data habs)
    · exact core_null_retr oracle emb data metrics _ hm (by decide)
        (retrPrepare_none_falsy_ctx data _ (by rw [habs]; rfl))
  · subst h2
    obtain rfl : reqs = ["user_input", "reference", "retrieved_contexts"] :=
      (Option.some.inj hreq).symm
    rcases (by simpa using hf :
        f = "user_input" ∨ f = "reference" ∨ f = "retrieved_contexts") with
      rfl | rfl | rfl
    · exact core_null_retr oracle emb data metrics _ hm (by decide)
        (retrPrepare_none_falsy_ui data _ (by rw [habs]; rfl))
    · exact core_null_retr oracle emb data metrics _ hm (by decide)
        (retrPrepare_none_cpr_ref data habs)
    · exact core_null_retr oracle emb data metrics _ hm (by decide)
        (retrPrepare_none_falsy_ctx data _ (by rw [habs]; rfl))
  · subst h3
    obtain rfl : reqs = ["user_input", "reference", "retrieved_contexts"] :=
      (Option.some.inj hreq).symm
    rcases (by simpa using hf :
        f = "user_input" ∨ f = "reference" ∨ f = "retrieved_contexts") with
      rfl | rfl | rfl
    · exact core_null_retr oracle emb data metrics _ hm (by decide)
        (retrPrepare_none_falsy_ui data _ (by rw [habs]; rfl))
    · exact core_null_retr oracle emb data metrics _ hm (by decide)
        (retrPrepare_none_cr_ref data habs)
    · exact core_null_retr oracle emb data metrics _ hm (by decide)
        (retrPrepare_none_falsy_ctx data _ (by rw [habs]; rfl))
  · subst h4
    obtain rfl : reqs = ["user_input", "response", "retrieved_contexts"] :=
      (Option.some.inj hreq).symm
    rcases (by simpa using hf :
        f = "user_input" ∨ f = "response" ∨ f = "retrieved_contexts") with
      rfl | rfl | rfl
    · exact core_null_gen oracle emb data metrics _ hm (by decide)
        (genPrepare_none_falsy_ui data _ (by rw [habs]; rfl))
    · exact core_null_gen oracle emb data metrics _ hm (by decide)
        (genPrepare_none_falsy_resp data _ (by rw [habs]; rfl))
    · exact core_null_gen oracle emb data metrics _ hm (by decide)
        (genPrepare_none_faith_ctx data habs)
  · subst h5
    obtain rfl : reqs = ["user_input", "response"] :=
      (Option.some.inj hreq).symm
    rcases (by simpa using hf : f = "user_input" ∨ f = "response") with
      rfl | rfl
    · exact core_null_gen oracle emb data metrics _ hm (by decide)
        (genPrepare_none_falsy_ui data _ (by rw [habs]; rfl))
    · exact core_null_gen oracle emb data metrics _ hm (by decide)
        (genPrepare_none_falsy_resp data _ (by rw [habs]; rfl))
  · subst h6
    obtain rfl : reqs = ["user_input", "response", "reference"] :=
      (Option.some.inj hreq).symm
    rcases (by simpa using hf :
        f = "user_input" ∨ f = "response" ∨ f = "reference") with
      rfl | rfl | rfl
    · exact core_null_gen oracle emb data metrics _ hm (by decide)
        (genPrepare_none_falsy_ui data _ (by rw [habs]; rfl))
    · exact core_null_gen oracle emb data metrics _ hm (by decide)
        (genPrepare_none_falsy_resp data _ (by rw [habs]; rfl))
    · exact core_null_gen oracle emb data metrics _ hm (by decide)
        (genPrepare_none_corr_ref data habs)
  · subst h7
    obtain rfl : reqs = ["response", "reference"] :=
      (Option.some.inj hreq).symm
    rcases (by simpa using hf : f = "response" ∨ f = "reference") with
      rfl | rfl
    · exact core_null_sim oracle emb data metrics _ hm (by decide)
        (simPrepare_none_resp data _ habs)
    · exact core_null_sim oracle emb data metrics _ hm (by decide)
        (simPrepare_none_ref data _ habs)
  · subst h8
    obtain rfl : reqs = ["response", "reference"] :=
      (Option.some.inj hreq).symm
    rcases (by simpa using hf : f = "response" ∨ f = "reference") with
      rfl | rfl
    · exact core_null_sim oracle emb data metrics _ hm (by decide)
        (simPrepare_none_resp data _ habs)
    · exact core_null_sim oracle emb data metrics _ hm (by decide)
        (simPrepare_none_ref data _ habs)
  · subst h9
    obtain rfl : reqs = ["response", "reference"] :=
      (Option.some.inj hreq).symm
    rcases (by simpa using hf : f = "response" ∨ f = "reference") with
      rfl | rfl
    · exact core_null_sim oracle emb data metrics _ hm (by decide)
        (simPrepare_none_resp data _ habs)
    · exact core_null_sim oracle emb data metrics _ hm (by decide)
        (simPrepare_none_ref data _ habs)

/-- C6 witness: scenario B — `answer_correctness` on the scenario-A record,
which lacks `reference`. -/
theorem C6_missing_required_field_witness :
    alookup "answer_correctness" requirementsThree =
      some ["user_input", "response", "reference"] ∧
    Record.get dataFull "reference" = none ∧
    alookup "answer_correctness" (evaluateMetricsCore oracleOK true dataFull
      ["answer_correctness"]).scores = some none ∧
    "answer_correctness" ∈ (evaluateMetricsCore oracleOK true dataFull
      ["answer_correctness"]).skipped := by
  have h := C6_missing_required_field_skipped oracleOK true dataFull
    ["answer_correctness"] "answer_correctness" "reference"
    ["user_input", "response", "reference"] rfl (by decide) rfl (by decide)
  exact ⟨rfl, rfl, h.1, h.2.1⟩

/-- C10: required-field presence is decided by truthiness, not key
presence — a generation-family metric sees a null result and no scoring
call whenever `user_input` or `response` is present but empty, and a
retrieval-family metric likewise whenever `user_input` is the empty string
or `retrieved_contexts` is present but the empty list. -/
theorem C10_truthiness_validation (oracle : Oracle) (data : Record)
    (names : List String) (m : String) :
    ((Record.get data "user_input" = some (Val.str "") ∨
      Record.get data "response" = some (Val.str "")) →
      m ∈ GenerationMetrics.supportedMetrics → m ∈ names →
      alookup m (familyCalc generationFamily oracle data names).results =
        some none ∧
      (familyCalc generationFamily oracle data names).calls.filter
        (fun c => c.1 == m) = []) ∧
    ((Record.get data "user_input" = some (Val.str "") ∨
      Record.get data "retrieved_contexts" = some (Val.list [])) →
      m ∈ RetrievalMetrics.supportedMetrics → m ∈ names →
      alookup m (familyCalc retrievalFamily oracle data names).results =
        some none ∧
      (familyCalc retrievalFamily oracle data names).calls.filter
        (fun c => c.1 == m) = []) := by
  constructor
  · intro hval hmem hin
    have hp : GenerationMetrics.prepareSample data m = none := by
      rcases hval with h | h
      · exact genPrepare_none_falsy_ui data m (by rw [h]; rfl)
      · exact genPrepare_none_falsy_resp data m (by rw [h]; rfl)
    constructor
    · rw [famCalc_results, if_pos ⟨hin, famHandles_gen m hmem⟩,
        famOne_none_of_prepare _ _ _ _ hp]
    · rw [famCalc_calls]
      exact filterMap_famCall_nil _ _ _ _
        (Or.inl (famCall_none_of_prepare _ _ _ hp))
  · intro hval hmem hin
    have hp : RetrievalMetrics.prepareSample data m = none := by
      rcases hval with h | h
      · exact retrPrepare_none_falsy_ui data m (by rw [h]; rfl)
      · exact retrPrepare_none_falsy_ctx data m (by rw [h]; rfl)
    constructor
    · rw [famCalc_results, if_pos ⟨hin, famHandles_retr m hmem⟩,
        famOne_none_of_prepare _ _ _ _ hp]
    · rw [famCalc_calls]
      exact filterMap_famCall_nil _ _ _ _
        (Or.inl (famCall_none_of_prepare _ _ _ hp))

/-- C10 witness: an empty `user_input` string nulls both `faithfulness`
and `context_precision` with no scoring call. -/
theorem C10_truthiness_validation_witness :
    Record.get dataEmptyUI "user_input" = some (Val.str "") ∧
    alookup "faithfulness" (familyCalc generationFamily oracleOK dataEmptyUI
      ["faithfulness"]).results = some none ∧
    alookup "context_precision" (familyCalc retrievalFamily oracleOK
      dataEmptyUI ["context_precision"]).results = some none := by
  refine ⟨rfl, ?_, ?_⟩
  · exact ((C10_truthiness_validation oracleOK dataEmptyUI ["faithfulness"]
      "faithfulness").1 (Or.inl rfl) (by decide) (by decide)).1
  · exact ((C10_truthiness_validation oracleOK dataEmptyUI
      ["context_precision"] "context_precision").2 (Or.inl rfl) (by decide)
      (by decide)).1

/-- Helper: every failing `get_llm` call leaves the whole manager state —
in particular the cache mapping — unchanged (the cache write happens only
after construction succeeds). -/
theorem getLLM_error_state (cfg : Config) (st : MMState)
    (pArg mArg : Option String) (e : MMError) (stE : MMState)
    (heq : getLLM cfg st pArg mArg = (Except.error e, stE)) : stE = st := by
  unfold getLLM at heq
  dsimp only at heq
  split at heq
  · exact (Prod.mk.injEq .. |>.mp heq).2.symm
  · split at heq
    · exact (Prod.mk.injEq .. |>.mp heq).2.symm
    · split at heq
      · simp at heq
      · split at heq
        · split at heq
          · exact (Prod.mk.injEq .. |>.mp heq).2.symm
          · simp at heq
        · split at heq
          · split at heq
            · exact (Prod.mk.injEq .. |>.mp heq).2.symm
            · simp at heq
          · exact (Prod.mk.injEq .. |>.mp heq).2.symm

/-- C7: in any interleaving of atomic `get_llm` calls (the source function
has no suspension point, so each call is atomic under the cooperative
scheduler), two successful calls resolving to the same (provider, model)
pair return the identical memoized handle — at most one handle per
identity key — and the second call leaves the state untouched. -/
theorem C7_cache_identity (cfg : Config) (st : MMState)
    (p1 m1 p2 m2 : Option String)
    (reqs : List (Option String × Option String))
    (prov mod : String) (h1 h2 : Handle) (st1 stMid st2 : MMState)
    (outs : List (Except MMError Handle))
    (hres1 : resolveLLM cfg p1 m1 = (prov, mod))
    (hres2 : resolveLLM cfg p2 m2 = (prov, mod))
    (hc1 : getLLM cfg st p1 m1 = (Except.ok h1, st1))
    (hrun : runGetLLM cfg st1 reqs = (stMid, outs))
    (hc2 : getLLM cfg stMid p2 m2 = (Except.ok h2, st2)) :
    h2 = h1 ∧ st2 = stMid := by
  have hk1 := getLLM_ok_cached cfg st p1 m1 prov mod h1 st1 hres1 hc1
  have hk2 : alookup (cacheKeyOf prov mod) stMid.llmCache = some h1 := by
    have hpres := runGetLLM_preserve cfg reqs st1 (cacheKeyOf prov mod) h1 hk1
    rw [hrun] at hpres
    exact hpres
  exact getLLM_ok_of_cached cfg stMid p2 m2 prov mod h1 h2 st2 hres2 hk2 hc2

/-- C7 witness: a first default-resolved call constructs and caches handle
0; after an unrelated call for a different model, an explicit call for the
same resolved pair returns the identical handle 0. -/
theorem C7_cache_identity_witness :
    getLLM cfgKey st0 none none = (Except.ok 0, stW1) ∧
    runGetLLM cfgKey stW1 [(none, some "gpt-3.5-turbo")] =
      (stW2, [Except.ok 1]) ∧
    getLLM cfgKey stW2 (some "openai") (some "gpt-4") =
      (Except.ok 0, stW2) ∧
    (0 : Handle) = 0 := by
  refine ⟨rfl, rfl, rfl, ?_⟩
  exact (C7_cache_identity cfgKey st0 none none (some "openai")
    (some "gpt-4") [(none, some "gpt-3.5-turbo")] "openai" "gpt-4" 0 0
    stW1 stW2 stW2 [Except.ok 1] rfl rfl rfl rfl rfl).1

/-- C8: `get_llm` fails with an unsupported-provider error when the
resolved provider is outside the catalog, with an unsupported-model error
when the resolved model is outside the provider's catalog, and with a
missing-credential error when the resolved provider's credential is not
configured (and the pair is not already cached); every failing call leaves
the state — hence the cache mapping — unchanged, and a later call with a
corrected configuration resolving to the same pair succeeds. -/
theorem C8_getLLM_failure_modes (cfg cfg2 : Config) (st : MMState)
    (pArg mArg : Option String) (prov mod : String)
    (hres : resolveLLM cfg pArg mArg = (prov, mod)) :
    (SUPPORTED_MODELS prov = none →
      getLLM cfg st pArg mArg =
        (Except.error (.unsupportedProvider prov), st)) ∧
    (∀ cat, SUPPORTED_MODELS prov = some cat →
      cat.llm.contains mod = false →
      getLLM cfg st pArg mArg =
        (Except.error (.unsupportedModel prov mod), st)) ∧
    (∀ cat, SUPPORTED_MODELS prov = some cat →
      cat.llm.contains mod = true →
      alookup (cacheKeyOf prov mod) st.llmCache = none →
      credMissing (credential cfg prov) = true →
      getLLM cfg st pArg mArg =
        (Except.error (.missingCredential prov), st)) ∧
    (∀ e stE, getLLM cfg st pArg mArg = (Except.error e, stE) → stE = st) ∧
    (resolveLLM cfg2 pArg mArg = (prov, mod) →
      ∀ cat, SUPPORTED_MODELS prov = some cat →
      cat.llm.contains mod = true →
      credMissing (credential cfg2 prov) = false →
      ∃ h st2, getLLM cfg2 st pArg mArg = (Except.ok h, st2)) := by
  unfold resolveLLM at hres
  injection hres with hprov hmod
  subst hprov
  subst hmod
  refine ⟨?_, ?_, ?_, ?_, ?_⟩
  · intro hsup
    unfold getLLM
    dsimp only
    rw [hsup]
  · intro cat hsup hcon
    unfold getLLM
    dsimp only
    rw [hsup]
    have hnmem : ¬ pyOr mArg cfg.DEFAULT_LLM_MODEL ∈ cat.llm := by
      simpa using hcon
    simp [hnmem]
  · intro cat hsup hcon hmiss hcred
    unfold getLLM
    dsimp only
    rw [hsup]
    simp only [hcon, Bool.not_true, Bool.false_eq_true, if_false]
    rw [hmiss]
    rcases supported_provider_cases _ cat hsup with hcase | hcase
    · rw [hcase] at hcred ⊢
      have hcm : credMissing cfg.OPENAI_API_KEY = true := by
        simpa [credential] using hcred
      simp [hcm]
    · rw [hcase] at hcred ⊢
      have hcm : credMissing cfg.ANTHROPIC_API_KEY = true := by
        simpa [credential] using hcred
      simp [hcm]
  · intro e stE heq
    exact getLLM_error_state cfg st pArg mArg e stE heq
  · intro hres2 cat hsup hcon hcred2
    unfold resolveLLM at hres2
    injection hres2 with hprov2 hmod2
    unfold getLLM
    dsimp only
    rw [hprov2, hmod2, hsup]
    simp only [hcon, Bool.not_true, Bool.false_eq_true, if_false]
    cases hc : alookup (cacheKeyOf (pyOr pArg cfg.DEFAULT_PROVIDER)
        (pyOr mArg cfg.DEFAULT_LLM_MODEL)) st.llmCache with
    | some h => exact ⟨h, st, rfl⟩
    | none =>
      rcases supported_provider_cases _ cat hsup with hcase | hcase
      · rw [hcase] at hcred2 ⊢
        have hcm : credMissing cfg2.OPENAI_API_KEY = false := by
          simpa [credential] using hcred2
        refine ⟨st.nextId,
          { st with
            llmCache := dinsert st.llmCache
              (cacheKeyOf "openai" (pyOr mArg cfg.DEFAULT_LLM_MODEL)) st.nextId
            nextId := st.nextId + 1 }, ?_⟩
        simp [hcm]
      · rw [hcase] at hcred2 ⊢
        have hcm : credMissing cfg2.ANTHROPIC_API_KEY = false := by
          simpa [credential] using hcred2
        refine ⟨st.nextId,
          { st with
            llmCache := dinsert st.llmCache
              (cacheKeyOf "anthropic" (pyOr mArg cfg.DEFAULT_LLM_MODEL)) st.nextId
            nextId := st.nextId + 1 }, ?_⟩
        simp [hcm]

/-- C8 witness: with no OpenAI key the default-resolved call fails with a
missing-credential error and an unchanged state; with the key configured
the same call succeeds. -/
theorem C8_getLLM_failure_modes_witness :
    getLLM cfgNoKey st0 none none =
      (Except.error (MMError.missingCredential "openai"), st0) ∧
    (∃ h st2, getLLM cfgKey st0 none none = (Except.ok h, st2)) := by
  have h := C8_getLLM_failure_modes cfgNoKey cfgKey st0 none none
    "openai" "gpt-4" rfl
  refine ⟨?_, ?_⟩
  · exact h.2.2.1 openaiCatalog rfl (by decide) rfl rfl
  · exact h.2.2.2.2 rfl openaiCatalog rfl (by decide) rfl

end RagasEval
